import Mathlib

/-!
Verification of the chronos-protocol adapter: a shallow embedding of the two
near-duplicate implementations (the server module `chronos-brain.js` and the
Deno edge-function variant) together with theorems about the claims of the
natural-language specification.

JavaScript values that can flow through `JSON.parse`/`JSON.stringify` are
modelled by the inductive type `Json`.  Numbers keep their source lexeme: no
claim depends on floating-point arithmetic, only on nullish-ness, truthiness
and `typeof`, which are decided syntactically below exactly as JavaScript
decides them on parsed-JSON values.  `undefined` is modelled as `Option.none`
at property-access sites (a JSON value itself is never `undefined`).
-/

namespace Chronos

/-- JSON values (the result type of `JSON.parse`). `num` stores the numeric
source lexeme, e.g. `"42"` or `"-1.5e3"`. -/
inductive Json where
  | null
  | bool (b : Bool)
  | num (lexeme : String)
  | str (s : String)
  | arr (elems : List Json)
  | obj (fields : List (String × Json))

/-- A numeric lexeme denotes zero iff every digit of its mantissa (the part
before any exponent) is `0`; the exponent cannot make a zero nonzero. -/
def numLexemeIsZero (s : String) : Bool :=
  (s.data.takeWhile (fun c => !(c == 'e' || c == 'E'))).all
    (fun c => c == '0' || c == '-' || c == '.' || c == '+')

/-- JavaScript truthiness of a parsed-JSON value: `null`, `false`, `0` and
`""` are falsy, everything else (including `[]` and `\x7b\x7d`) is truthy. -/
def truthy : Json → Bool
  | .null => false
  | .bool b => b
  | .num l => !(numLexemeIsZero l)
  | .str s => !(s == "")
  | .arr _ => true
  | .obj _ => true

/-- JavaScript `typeof` on a parsed-JSON value (`typeof null` is `"object"`,
arrays are objects). -/
def typeofJs : Json → String
  | .null => "object"
  | .bool _ => "boolean"
  | .num _ => "number"
  | .str _ => "string"
  | .arr _ => "object"
  | .obj _ => "object"

/-- Is this value the JSON `null`? (the only nullish parsed-JSON value). -/
def isNullJson : Json → Bool
  | .null => true
  | _ => false

/-- Is this value a JSON string? -/
def isStrJson : Json → Bool
  | .str _ => true
  | _ => false

/-- Is this value a JSON array (JavaScript `Array.isArray`)? -/
def isArrayJson : Json → Bool
  | .arr _ => true
  | _ => false

/-- Property access `v[k]` on a parsed-JSON value: a lookup on objects,
`undefined` (`none`) on every other value.  (Access on `null` would throw in
JavaScript; every access site in the sources is either guarded or modelled
explicitly as fallible.) -/
def getField : Json → String → Option Json
  | .obj fs, k => (fs.find? (fun p => p.1 == k)).map (fun p => p.2)
  | _, _ => none

/-- Truthiness of a possibly-`undefined` value. -/
def optTruthy : Option Json → Bool
  | some v => truthy v
  | none => false

/-- JavaScript `a || b` on possibly-`undefined` values: `a` if truthy, else `b`. -/
def orJs (a b : Option Json) : Option Json :=
  if optTruthy a then a else b

/-- JavaScript `a ?? b` on possibly-`undefined` values: `b` exactly when `a`
is `undefined` or `null`. -/
def nvlOpt (a b : Option Json) : Option Json :=
  match a with
  | some v => if isNullJson v then b else some v
  | none => b

/-- JavaScript `a ?? b` where the fallback `b` is a present value. -/
def nvl (a : Option Json) (b : Json) : Json :=
  match a with
  | some v => if isNullJson v then b else v
  | none => b

/-- Is a possibly-`undefined` value nullish (`undefined` or `null`)? -/
def nullishOpt : Option Json → Bool
  | none => true
  | some v => isNullJson v

/-- Is a possibly-`undefined` value a string? -/
def isStrOpt : Option Json → Bool
  | some (.str _) => true
  | _ => false

/-! ## `JSON.stringify(v, null, 2)` -/

/-- One hexadecimal digit (lower case), for `\uNNNN` escapes. -/
def hexDigitChar (n : Nat) : Char :=
  if n < 10 then Char.ofNat ('0'.toNat + n) else Char.ofNat ('a'.toNat + (n - 10))

/-- How `JSON.stringify` renders one character of a string: the two-character
escapes for `"`, `\\`, backspace, form feed, newline, carriage return and tab,
`\u00NN` for the remaining control characters, and the character itself
otherwise. -/
def escapeChar (c : Char) : List Char :=
  if c == '"' then ['\\', '"']
  else if c == '\\' then ['\\', '\\']
  else if c == '\x08' then ['\\', 'b']
  else if c == '\x0c' then ['\\', 'f']
  else if c == '\n' then ['\\', 'n']
  else if c == '\r' then ['\\', 'r']
  else if c == '\t' then ['\\', 't']
  else if Nat.blt c.toNat 0x20 then
    let hi := hexDigitChar (c.toNat / 16)
    let lo := hexDigitChar (c.toNat % 16)
    ['\\', 'u', '0', '0', hi, lo]
  else [c]

/-- A JSON string literal as `JSON.stringify` prints it. -/
def quoteJs (s : String) : String :=
  ⟨'"' :: (s.data.map escapeChar).flatten ++ ['"']⟩

mutual

/-- `JSON.stringify(v, null, 2)` at indentation `ind`: the pretty printer used
for the payload sections and for the whole-input fallback rendering. -/
def stringifyV (ind : String) : Json → String
  | .null => "null"
  | .bool b => if b then "true" else "false"
  | .num l => l
  | .str s => quoteJs s
  | .arr [] => "[]"
  | .arr (e :: es) =>
    "[\n" ++ stringifyItems (ind ++ "  ") (e :: es) ++ "\n" ++ ind ++ "]"
  | .obj [] => "\x7b\x7d"
  | .obj (f :: fs) =>
    "\x7b\n" ++ stringifyFields (ind ++ "  ") (f :: fs) ++ "\n" ++ ind ++ "\x7d"

/-- Array elements, one per line, separated by `,\n`. -/
def stringifyItems (ind : String) : List Json → String
  | [] => ""
  | [e] => ind ++ stringifyV ind e
  | e :: e' :: es => ind ++ stringifyV ind e ++ ",\n" ++ stringifyItems ind (e' :: es)

/-- Object fields, one per line, `"key": value`, separated by `,\n`. -/
def stringifyFields (ind : String) : List (String × Json) → String
  | [] => ""
  | [(k, v)] => ind ++ quoteJs k ++ ": " ++ stringifyV ind v
  | (k, v) :: f :: fs =>
    ind ++ quoteJs k ++ ": " ++ stringifyV ind v ++ ",\n" ++ stringifyFields ind (f :: fs)

end

/-- `JSON.stringify(v, null, 2)`. -/
def stringify2 (v : Json) : String := stringifyV "" v

/-! ## JavaScript whitespace, `String.prototype.trim`, and the code-fence regex -/

/-- The ECMAScript WhiteSpace ∪ LineTerminator set: the characters removed by
`String.prototype.trim` and matched by `\s` in a regular expression. -/
def jsWsChar (c : Char) : Bool :=
  c == ' ' || c == '\t' || c == '\n' || c == '\r' || c == '\x0b' || c == '\x0c' ||
  c == '\u00A0' || c == '\u1680' ||
  (Nat.ble 0x2000 c.toNat && Nat.ble c.toNat 0x200A) ||
  c == '\u2028' || c == '\u2029' || c == '\u202F' || c == '\u205F' ||
  c == '\u3000' || c == '\uFEFF'

/-- Remove leading and trailing JavaScript whitespace from a character list. -/
def trimChars (cs : List Char) : List Char :=
  ((cs.dropWhile jsWsChar).reverse.dropWhile jsWsChar).reverse

/-- JavaScript `String.prototype.trim`. -/
def trimJs (s : String) : String := ⟨trimChars s.data⟩

/-- Does the character list start with three backticks? -/
def startsWithTB (cs : List Char) : Bool :=
  match cs with
  | '\x60' :: '\x60' :: '\x60' :: _ => true
  | _ => false

/-- Index of the first occurrence of three consecutive backticks. -/
def firstTBIdx : List Char → Option Nat
  | [] => none
  | c :: cs =>
    if startsWithTB (c :: cs) then some 0
    else (firstTBIdx cs).map (fun n => n + 1)

/--
The capture group of the first match of the regular expression
/\x60\x60\x60(?:json)?\s*([\s\S]*?)\x60\x60\x60/ (three backticks, an optional
`json` tag, greedy whitespace, then a lazy capture up to the next three
backticks), or `none` when the text has no match.

The backtracking of the real engine never changes this result: the characters
consumed by `(?:json)?` and `\s*` are never backticks, so no closing fence can
hide inside them, and if no closing fence follows the first opening fence then
no occurrence of three backticks at all follows it, hence no later starting
position can match either.
-/
def matchFence (cs : List Char) : Option (List Char) :=
  match firstTBIdx cs with
  | none => none
  | some o =>
    let afterOpen := cs.drop (o + 3)
    let afterTag :=
      if afterOpen.take 4 = ['j', 's', 'o', 'n'] then afterOpen.drop 4 else afterOpen
    let content := afterTag.dropWhile jsWsChar
    match firstTBIdx content with
    | none => none
    | some c => some (content.take c)

/-! ## `JSON.parse` -/

/-- Whitespace accepted between JSON tokens by `JSON.parse` (only these four). -/
def jsonWsChar (c : Char) : Bool :=
  c == ' ' || c == '\t' || c == '\n' || c == '\r'

/-- Value of one hexadecimal digit, if it is one (codepoint arithmetic:
digits 48–57, lower case 97–102, upper case 65–70). -/
def hexVal (c : Char) : Option Nat :=
  let n := c.toNat
  if Nat.ble 48 n && Nat.ble n 57 then some (n - 48)
  else if Nat.ble 97 n && Nat.ble n 102 then some (n - 87)
  else if Nat.ble 65 n && Nat.ble n 70 then some (n - 55)
  else none

/-- Decide whether fields already contain a key; `JSON.parse` lets a later
duplicate key overwrite the earlier binding in place. -/
def objInsert (fs : List (String × Json)) (k : String) (v : Json) : List (String × Json) :=
  if fs.any (fun p => p.1 == k) then
    fs.map (fun p => if p.1 == k then (k, v) else p)
  else fs ++ [(k, v)]

/-- Body of a JSON string literal (after the opening quote): returns the
decoded characters and the remaining input. -/
def parseStringBody : Nat → List Char → List Char → Except String (List Char × List Char)
  | 0, _, _ => .error "Unterminated string in JSON"
  | _, [], _ => .error "Unterminated string in JSON"
  | fuel + 1, c :: rest, acc =>
    if c == '"' then .ok (acc.reverse, rest)
    else if c == '\\' then
      match rest with
      | [] => .error "Unterminated string in JSON"
      | e :: rest' =>
        if e == '"' then parseStringBody fuel rest' ('"' :: acc)
        else if e == '\\' then parseStringBody fuel rest' ('\\' :: acc)
        else if e == '/' then parseStringBody fuel rest' ('/' :: acc)
        else if e == 'b' then parseStringBody fuel rest' ('\x08' :: acc)
        else if e == 'f' then parseStringBody fuel rest' ('\x0c' :: acc)
        else if e == 'n' then parseStringBody fuel rest' ('\n' :: acc)
        else if e == 'r' then parseStringBody fuel rest' ('\r' :: acc)
        else if e == 't' then parseStringBody fuel rest' ('\t' :: acc)
        else if e == 'u' then
          match rest' with
          | h1 :: h2 :: h3 :: h4 :: rest'' =>
            match hexVal h1, hexVal h2, hexVal h3, hexVal h4 with
            | some a, some b, some c', some d =>
              parseStringBody fuel rest''
                (Char.ofNat (((a * 16 + b) * 16 + c') * 16 + d) :: acc)
            | _, _, _, _ => .error "Bad Unicode escape in JSON"
          | _ => .error "Bad Unicode escape in JSON"
        else .error "Bad escaped character in JSON"
    else if Nat.blt c.toNat 0x20 then
      .error "Bad control character in string literal in JSON"
    else parseStringBody fuel rest (c :: acc)

/-- The digits of a JSON number after an initial digit `first`: `0` must stand
alone as the integer part, otherwise all following digits are taken. -/
def intPartDigits (first : Char) (cs : List Char) : List Char × List Char :=
  if first == '0' then ([first], cs)
  else (first :: cs.takeWhile Char.isDigit, cs.dropWhile Char.isDigit)

/-- The lexeme of a JSON number starting at the head of the input (which the
caller has checked is `-` or a digit), and the remaining input. -/
def parseNumberLexeme (cs : List Char) : Except String (List Char × List Char) :=
  let (sign, cs1) :=
    match cs with
    | '-' :: rest => (['-'], rest)
    | _ => (([] : List Char), cs)
  match cs1 with
  | d :: rest =>
    if d.isDigit then
      let (ip, cs2) := intPartDigits d rest
      let (fp, cs3) :=
        match cs2 with
        | '.' :: f :: frest =>
          if f.isDigit then
            ('.' :: f :: frest.takeWhile Char.isDigit, frest.dropWhile Char.isDigit)
          else (([] : List Char), cs2)
        | _ => (([] : List Char), cs2)
      if fp.isEmpty && cs2 ≠ cs3 then .error "Unexpected token in JSON"
      else
        match cs3 with
        | e :: erest =>
          if e == 'e' || e == 'E' then
            let (es, erest2) :=
              match erest with
              | '+' :: r => (['+'], r)
              | '-' :: r => (['-'], r)
              | _ => (([] : List Char), erest)
            match erest2 with
            | d2 :: drest =>
              if d2.isDigit then
                .ok (sign ++ ip ++ fp ++ e :: es ++ d2 :: drest.takeWhile Char.isDigit,
                     drest.dropWhile Char.isDigit)
              else .error "Exponent part is missing a number in JSON"
            | [] => .error "Exponent part is missing a number in JSON"
          else .ok (sign ++ ip ++ fp, cs3)
        | [] => .ok (sign ++ ip ++ fp, cs3)
    else .error "Unexpected token in JSON"
  | [] => .error "Unexpected end of JSON input"

mutual

/-- One JSON value, preceded by optional whitespace: the recursive core of
`JSON.parse`.  The fuel argument only bounds the recursion; `jsonParse` below
supplies more fuel than any input of that length can consume. -/
def pValue : Nat → List Char → Except String (Json × List Char)
  | 0, _ => .error "JSON input too deeply nested"
  | fuel + 1, cs0 =>
    let cs := cs0.dropWhile jsonWsChar
    match cs with
    | [] => .error "Unexpected end of JSON input"
    | c :: rest =>
      if c == 'n' then
        match rest with
        | 'u' :: 'l' :: 'l' :: r => .ok (Json.null, r)
        | _ => .error "Unexpected token in JSON"
      else if c == 't' then
        match rest with
        | 'r' :: 'u' :: 'e' :: r => .ok (Json.bool true, r)
        | _ => .error "Unexpected token in JSON"
      else if c == 'f' then
        match rest with
        | 'a' :: 'l' :: 's' :: 'e' :: r => .ok (Json.bool false, r)
        | _ => .error "Unexpected token in JSON"
      else if c == '"' then
        match parseStringBody rest.length rest [] with
        | .ok (body, r) => .ok (Json.str ⟨body⟩, r)
        | .error e => .error e
      else if c == '-' || c.isDigit then
        match parseNumberLexeme (c :: rest) with
        | .ok (lex, r) => .ok (Json.num ⟨lex⟩, r)
        | .error e => .error e
      else if c == '[' then
        let cs' := rest.dropWhile jsonWsChar
        match cs' with
        | ']' :: r => .ok (Json.arr [], r)
        | _ => pElems fuel cs' []
      else if c == '\x7b' then
        let cs' := rest.dropWhile jsonWsChar
        match cs' with
        | '\x7d' :: r => .ok (Json.obj [], r)
        | _ => pFields fuel cs' []
      else .error "Unexpected token in JSON"

/-- The elements of a JSON array after `[`, accumulating in reverse. -/
def pElems : Nat → List Char → List Json → Except String (Json × List Char)
  | 0, _, _ => .error "JSON input too deeply nested"
  | fuel + 1, cs, acc =>
    match pValue fuel cs with
    | .error e => .error e
    | .ok (v, cs2) =>
      let cs3 := cs2.dropWhile jsonWsChar
      match cs3 with
      | ',' :: r => pElems fuel r (v :: acc)
      | ']' :: r => .ok (Json.arr (v :: acc).reverse, r)
      | _ => .error "Expected ',' or ']' after array element in JSON"

/-- The fields of a JSON object after `\x7b`, accumulating with
last-duplicate-wins insertion. -/
def pFields : Nat → List Char → List (String × Json) → Except String (Json × List Char)
  | 0, _, _ => .error "JSON input too deeply nested"
  | fuel + 1, cs, acc =>
    match cs.dropWhile jsonWsChar with
    | '"' :: rest =>
      match parseStringBody rest.length rest [] with
      | .error e => .error e
      | .ok (key, cs2) =>
        match cs2.dropWhile jsonWsChar with
        | ':' :: cs3 =>
          match pValue fuel cs3 with
          | .error e => .error e
          | .ok (v, cs4) =>
            let acc' := objInsert acc ⟨key⟩ v
            match cs4.dropWhile jsonWsChar with
            | ',' :: r => pFields fuel r acc'
            | '\x7d' :: r => .ok (Json.obj acc', r)
            | _ => .error "Expected ',' or '\x7d' after property value in JSON"
        | _ => .error "Expected ':' after property name in JSON"
    | _ => .error "Expected double-quoted property name in JSON"

end

/-- `JSON.parse`: parse one JSON value and reject trailing non-whitespace.
The fuel `2 * length + 2` strictly dominates the recursion depth, which
consumes at least one input character for every two fuel ticks. -/
def jsonParse (s : String) : Except String Json :=
  match pValue (2 * s.length + 2) s.data with
  | .error e => .error e
  | .ok (v, rest) =>
    if (rest.dropWhile jsonWsChar).isEmpty then .ok v
    else .error "Unexpected non-whitespace character after JSON data"

/-! ## The assistant-reply JSON parser (`parseAssistantJson`, both variants) -/

/--
The text `parseAssistantJson` selects for parsing (both variants are
character-for-character identical here): trim the input; if the trimmed text
matches the code-fence regular expression, the trimmed first capture,
otherwise the whole trimmed text.
-/
def selectRaw (text : String) : String :=
  let trimmed := trimJs text
  match matchFence trimmed.data with
  | some inner => ⟨trimChars inner⟩
  | none => trimmed

/-- `parseAssistantJson` from both variants: select the raw text (handling a
markdown code fence) and `JSON.parse` it. -/
def parseAssistantJson (text : String) : Except String Json :=
  jsonParse (selectRaw text)

/-- Does `jsonParse` accept this text? (the model's notion of "valid JSON"). -/
def isValidJsonText (s : String) : Bool :=
  (jsonParse s).isOk

/-! ## The Payload Formatter, both variants -/

/-- The biometrics section: pushed when the value is a truthy `object`. -/
def bioSection (biometrics : Option Json) : List String :=
  match biometrics with
  | some v =>
    if truthy v && typeofJs v == "object" then ["## Biometrics\n" ++ stringify2 v] else []
  | none => []

/-- The labs section: pushed when the value is a truthy `object`. -/
def labsSection (labs : Option Json) : List String :=
  match labs with
  | some v =>
    if truthy v && typeofJs v == "object" then ["## Labs / Clinical\n" ++ stringify2 v]
    else []
  | none => []

/-- The calendar section of `formatExecutivePayload` in `chronos-brain.js`:
`calendar && Array.isArray(calendar)`, else `calendar && typeof calendar ===
'object'`. -/
def calSectionJs (calendar : Option Json) : List String :=
  match calendar with
  | some v =>
    if truthy v && isArrayJson v then ["## Calendar\n" ++ stringify2 v]
    else if truthy v && typeofJs v == "object" then ["## Calendar\n" ++ stringify2 v]
    else []
  | none => []

/-- The calendar section of the edge-function variant: `Array.isArray(calendar)`
first (without the truthiness guard), else `calendar && typeof calendar ===
'object'`. -/
def calSectionTs (calendar : Option Json) : List String :=
  match calendar with
  | some v =>
    if isArrayJson v then ["## Calendar\n" ++ stringify2 v]
    else if truthy v && typeofJs v == "object" then ["## Calendar\n" ++ stringify2 v]
    else []
  | none => []

/-- `sections.join('\n\n')` (JavaScript `Array.prototype.join`). -/
def joinSections : List String → String
  | [] => ""
  | [s] => s
  | s :: s' :: rest => s ++ "\n\n" ++ joinSections (s' :: rest)

/-- The section list built by `formatExecutivePayload` in `chronos-brain.js`. -/
def sectionsJs (biometrics labs calendar : Option Json) : List String :=
  bioSection biometrics ++ labsSection labs ++ calSectionJs calendar

/-- `formatExecutivePayload` from `chronos-brain.js`: the titled sections in
the fixed order biometrics, labs, calendar, joined by a blank line, or the
literal `"No data provided."` when no section qualifies. -/
def formatExecutivePayload (biometrics labs calendar : Option Json) : String :=
  let sections := sectionsJs biometrics labs calendar
  if sections.isEmpty then "No data provided." else joinSections sections

/-- `formatUserDataPayload` from `chronos-brain.js`: the labs and calendar
fields are selected with `||` (first TRUTHY), and a truthy field value sends
the input to `formatExecutivePayload` even when no section will qualify. -/
def formatUserDataPayloadJs (userData : Json) : String :=
  if truthy userData && typeofJs userData == "object" then
    let biometrics := getField userData "biometrics"
    let labs :=
      orJs (getField userData "clinical_markers")
        (orJs (getField userData "clinical_audit") (getField userData "labs"))
    let calendar := orJs (getField userData "calendar_events") (getField userData "calendar")
    if optTruthy biometrics || optTruthy labs || optTruthy calendar then
      formatExecutivePayload biometrics labs calendar
    else stringify2 userData
  else "No data provided."

/-- The labs value of the edge-function variant: `u.clinical_markers ??
u.clinical_audit ?? u.labs` (first NON-NULLISH). -/
def labsOfTs (u : Json) : Option Json :=
  nvlOpt (getField u "clinical_markers")
    (nvlOpt (getField u "clinical_audit") (getField u "labs"))

/-- The calendar value of the edge-function variant: `u.calendar_events ??
u.calendar`. -/
def calendarOfTs (u : Json) : Option Json :=
  nvlOpt (getField u "calendar_events") (getField u "calendar")

/-- The section list built inline by the edge-function variant. -/
def sectionsOfTs (u : Json) : List String :=
  bioSection (getField u "biometrics") ++ labsSection (labsOfTs u) ++
    calSectionTs (calendarOfTs u)

/-- `formatUserDataPayload` from the edge-function variant: fields selected
with `??`, and an empty section list falls back to the pretty-printed JSON of
the whole input (never `"No data provided."` for an object input). -/
def formatUserDataPayloadTs (userData : Json) : String :=
  if truthy userData && typeofJs userData == "object" then
    let sections := sectionsOfTs userData
    if sections.isEmpty then stringify2 userData else joinSections sections
  else "No data provided."

/-! ## The Dashboard Normalizer, both variants -/

/-- The four-field dashboard contract assembled by `normalizeForDashboard`.
The object literal in both sources always carries exactly these four keys. -/
structure Dash where
  directive : Json
  insight : Json
  statusText : Json
  protocolLogMessage : Json

/-- `normalizeForDashboard` from `chronos-brain.js`: a guarded total function;
non-object input yields four empty strings, otherwise each field is a `??`
chain over the parsed object's keys. -/
def normalizeForDashboardJs (parsed : Json) : Dash :=
  if truthy parsed && typeofJs parsed == "object" then
    { directive :=
        nvl (getField parsed "directive")
          (nvl (getField parsed "recommendation") (nvl (getField parsed "summary") (.str "")))
      insight := nvl (getField parsed "insight") (nvl (getField parsed "analysis") (.str ""))
      statusText :=
        nvl (getField parsed "status")
          (nvl (getField parsed "statusText") (.str "Optimal Baseline"))
      protocolLogMessage :=
        nvl (getField parsed "protocolLogMessage")
          (nvl (getField parsed "directive") (nvl (getField parsed "summary") (.str ""))) }
  else ⟨.str "", .str "", .str "", .str ""⟩

/-- `normalizeForDashboard` from the edge-function variant: unguarded, so a
`null` argument throws a `TypeError` (modelled as the V8 message); any other
value undergoes the same `??` chains (property access on a non-object
primitive yields `undefined`). -/
def normalizeForDashboardTs (parsed : Json) : Except String Dash :=
  match parsed with
  | .null => .error "Cannot read properties of null (reading 'directive')"
  | _ =>
    .ok
      { directive :=
          nvl (getField parsed "directive")
            (nvl (getField parsed "recommendation") (nvl (getField parsed "summary") (.str "")))
        insight := nvl (getField parsed "insight") (nvl (getField parsed "analysis") (.str ""))
        statusText :=
          nvl (getField parsed "status")
            (nvl (getField parsed "statusText") (.str "Optimal Baseline"))
        protocolLogMessage :=
          nvl (getField parsed "protocolLogMessage")
            (nvl (getField parsed "directive") (nvl (getField parsed "summary") (.str ""))) }

/-! ## The Response Extractor, both variants -/

/-- The `text` member of a content part (`part.text`), whose `value` member
may itself be absent. -/
structure TextPayload where
  value? : Option Json

/-- One content part of an assistant message: a `type` tag and an optional
`text` member. -/
structure ContentPart where
  ptype : String
  text : Option TextPayload

/-- One message of the thread listing (newest first): a role and content parts. -/
structure Message where
  role : String
  content : List ContentPart

/-- `list.data.find((m) => m.role === 'assistant')`. -/
def findAssistant (msgs : List Message) : Option Message :=
  msgs.find? (fun m => m.role == "assistant")

/-- `content.find((p) => p.type === 'text')`. -/
def findTextPart (m : Message) : Option ContentPart :=
  m.content.find? (fun p => p.ptype == "text")

/-- The string at `part.text.value`, when every step exists. -/
def partTextValue (p : ContentPart) : Option Json :=
  p.text.bind (fun t => t.value?)

/-- `getLatestAssistantMessage` from `chronos-brain.js` applied to the listed
messages: note that an assistant message with an EMPTY content array raises
`'No assistant message in thread'`, not the text-content error. -/
def getLatestAssistantMessageJs (msgs : List Message) : Except String String :=
  match findAssistant msgs with
  | none => .error "No assistant message in thread"
  | some m =>
    if m.content.isEmpty then .error "No assistant message in thread"
    else
      match findTextPart m with
      | none => .error "No text content in assistant message"
      | some p =>
        match p.text with
        | none => .error "No text content in assistant message"
        | some t =>
          match t.value? with
          | some (Json.str s) => .ok s
          | _ => .error "No text content in assistant message"

/-- `getLatestAssistantMessage` from the edge-function variant: here even a
nonempty content array WITHOUT a `text`-typed part raises `'No assistant
message in thread'`; only a `text` part whose value is not a string raises the
text-content error. -/
def getLatestAssistantMessageTs (msgs : List Message) : Except String String :=
  match findAssistant msgs with
  | none => .error "No assistant message in thread"
  | some m =>
    if m.content.isEmpty || !(m.content.any (fun p => p.ptype == "text")) then
      .error "No assistant message in thread"
    else
      match findTextPart m with
      | none => .error "No text content in assistant message"
      | some p =>
        match partTextValue p with
        | some (Json.str s) => .ok s
        | _ => .error "No text content in assistant message"

/-! ## The Run Orchestrator poll loop (`waitForRun`, both variants) -/

/-- Is this run status one of the abnormal terminal statuses? -/
def abnormalStatus (s : String) : Bool :=
  s == "failed" || s == "cancelled" || s == "expired"

/-- Is this run status terminal (completed or abnormal)? -/
def isTerminalStatus (s : String) : Bool :=
  s == "completed" || abnormalStatus s

/--
The poll loop of `waitForRun`: `retrieve i` is the i-th status read (which may
itself throw a transport error), and the fuel is the number of loop iterations
permitted by the `Date.now() - startedAt < maxWaitMs` guard under the loop's
own time accounting (one `pollIntervalMs` sleep per iteration).  Returns the
outcome together with the number of status reads issued.
-/
def waitLoop (retrieve : Nat → Except String String) (i : Nat) :
    Nat → Except String Unit × Nat
  | 0 => (.error "Run did not complete within max wait time", 0)
  | fuel + 1 =>
    match retrieve i with
    | .error e => (.error e, 1)
    | .ok status =>
      if status == "completed" then (.ok (), 1)
      else if abnormalStatus status then
        (.error ("Run ended with status: " ++ status), 1)
      else
        let r := waitLoop retrieve (i + 1) fuel
        (r.1, r.2 + 1)

/-- The number of poll iterations whose start time `i * pollIntervalMs` is
strictly below `maxWaitMs`: the iteration count of the `while` loop. -/
def numPolls (maxWaitMs pollIntervalMs : Nat) : Nat :=
  (maxWaitMs + pollIntervalMs - 1) / pollIntervalMs

/-- `waitForRun` (both variants; the source defaults are `maxWaitMs = 120000`
and `pollIntervalMs = 1500`, giving 80 polls). -/
def waitForRun (retrieve : Nat → Except String String)
    (maxWaitMs pollIntervalMs : Nat) : Except String Unit :=
  (waitLoop retrieve 0 (numPolls maxWaitMs pollIntervalMs)).1

/-- The first terminal status among `statuses i, statuses (i+1), ...` within
`fuel` reads — the specification-side view of what the poll loop reacts to. -/
def firstHit (statuses : Nat → String) (i : Nat) : Nat → Option String
  | 0 => none
  | fuel + 1 =>
    if isTerminalStatus (statuses i) then some (statuses i)
    else firstHit statuses (i + 1) fuel

/-! ## The Fallback Policy (`runProtocolAnalysis`, both variants) -/

/-- One outbound call to the assistant service. -/
inductive Call where
  | createThread
  | createMessage
  | createRun
  | retrieveRun
  | listMessages
deriving DecidableEq

/-- The behaviour of the external assistant service and the process
environment for one invocation: each API surface either throws (an error
message) or returns, and the i-th status read is `retrieveRun i`. -/
structure ServiceEnv where
  apiKey : Option String
  createThread : Except String String
  createMessage : Except String Unit
  createRun : Except String String
  retrieveRun : Nat → Except String String
  listMessages : Except String (List Message)

/-- The happy-path body of the `try` block in `chronos-brain.js`
(`getClient`, format, create thread/message/run, poll, extract, parse),
returning the parsed reply and raw text, plus the outbound calls made. -/
def attemptJs (env : ServiceEnv) (userData : Json) :
    Except String (Json × String) × List Call :=
  if env.apiKey.isNone then (.error "OPENAI_API_KEY is not set", [])
  else
    let _payload := formatUserDataPayloadJs userData
    match env.createThread with
    | .error e => (.error e, [.createThread])
    | .ok _ =>
      match env.createMessage with
      | .error e => (.error e, [.createThread, .createMessage])
      | .ok _ =>
        match env.createRun with
        | .error e => (.error e, [.createThread, .createMessage, .createRun])
        | .ok _ =>
          let w := waitLoop env.retrieveRun 0 (numPolls 120000 1500)
          let calls := [Call.createThread, .createMessage, .createRun] ++
            List.replicate w.2 .retrieveRun
          match w.1 with
          | .error e => (.error e, calls)
          | .ok _ =>
            match env.listMessages with
            | .error e => (.error e, calls ++ [.listMessages])
            | .ok msgs =>
              match getLatestAssistantMessageJs msgs with
              | .error e => (.error e, calls ++ [.listMessages])
              | .ok text =>
                match parseAssistantJson text with
                | .error e => (.error e, calls ++ [.listMessages])
                | .ok parsed => (.ok (parsed, text), calls ++ [.listMessages])

/-- `err.message || String(err)`: an `Error` with an empty message stringifies
to `"Error"`. -/
def errMsgJs (m : String) : String :=
  if m == "" then "Error" else m

/-- The spread of `PROTOCOL_CACHED_FALLBACK` plus the `error` key, as built in
the `catch` of `chronos-brain.js` — note there is NO `rawText`, `statusText`
or `protocolLogMessage` key on this path. -/
def cachedFallbackJs (m : String) : List (String × Json) :=
  [("protocolCached", .bool true), ("message", .str "Protocol Cached"),
   ("status", .str "cached"),
   ("directive", .str "Using last known protocol. AI temporarily unavailable."),
   ("insight", .str ""), ("data", .null), ("error", .str (errMsgJs m))]

/-- The completed-path result object (identical literal in both variants). -/
def successObject (parsed : Json) (text : String) (d : Dash) : List (String × Json) :=
  [("protocolCached", .bool false), ("status", .str "completed"), ("data", parsed),
   ("rawText", .str text), ("directive", d.directive), ("insight", d.insight),
   ("statusText", d.statusText), ("protocolLogMessage", d.protocolLogMessage)]

/-- Resolve the `try`/`catch` of `chronos-brain.js`: a successful attempt is
normalized and assembled, any thrown error becomes the cached fallback. -/
def finishJs : Except String (Json × String) → List (String × Json)
  | .ok (parsed, text) => successObject parsed text (normalizeForDashboardJs parsed)
  | .error m => cachedFallbackJs m

/-- `runProtocolAnalysis` from `chronos-brain.js`: the result object and the
outbound calls performed.  Total by construction — no error escapes. -/
def runProtocolAnalysisJs (env : ServiceEnv) (userData : Json) :
    List (String × Json) × List Call :=
  let a := attemptJs env userData
  (finishJs a.1, a.2)

/-- The short-circuit object returned by the edge-function variant when
`OPENAI_API_KEY` is absent (before any client is constructed). -/
def missingKeyObjectTs : List (String × Json) :=
  [("protocolCached", .bool true), ("message", .str "Protocol Cached"),
   ("status", .str "cached"),
   ("directive", .str "Using last known protocol. OPENAI_API_KEY not set."),
   ("insight", .str ""), ("statusText", .str "Protocol Cached"),
   ("protocolLogMessage", .str ""), ("error", .str "OPENAI_API_KEY not set")]

/-- The `catch` object of the edge-function variant: unlike the server module
it carries `statusText` and `protocolLogMessage`, but no `data`/`rawText`. -/
def cachedFallbackTs (m : String) : List (String × Json) :=
  [("protocolCached", .bool true), ("message", .str "Protocol Cached"),
   ("status", .str "cached"),
   ("directive", .str "Using last known protocol. AI temporarily unavailable."),
   ("insight", .str ""), ("statusText", .str "Protocol Cached"),
   ("protocolLogMessage", .str ""), ("error", .str m)]

/-- The happy-path body of the `try` block of the edge-function variant; the
normalizer runs INSIDE the `try` (it can throw on a `null` reply). -/
def attemptTs (env : ServiceEnv) (userData : Json) :
    Except String (Json × String × Dash) × List Call :=
  let _payload := formatUserDataPayloadTs userData
  match env.createThread with
  | .error e => (.error e, [.createThread])
  | .ok _ =>
    match env.createMessage with
    | .error e => (.error e, [.createThread, .createMessage])
    | .ok _ =>
      match env.createRun with
      | .error e => (.error e, [.createThread, .createMessage, .createRun])
      | .ok _ =>
        let w := waitLoop env.retrieveRun 0 (numPolls 120000 1500)
        let calls := [Call.createThread, .createMessage, .createRun] ++
          List.replicate w.2 .retrieveRun
        match w.1 with
        | .error e => (.error e, calls)
        | .ok _ =>
          match env.listMessages with
          | .error e => (.error e, calls ++ [.listMessages])
          | .ok msgs =>
            match getLatestAssistantMessageTs msgs with
            | .error e => (.error e, calls ++ [.listMessages])
            | .ok text =>
              match parseAssistantJson text with
              | .error e => (.error e, calls ++ [.listMessages])
              | .ok parsed =>
                match normalizeForDashboardTs parsed with
                | .error e => (.error e, calls ++ [.listMessages])
                | .ok d => (.ok (parsed, text, d), calls ++ [.listMessages])

/-- Resolve the `try`/`catch` of the edge-function variant. -/
def finishTs : Except String (Json × String × Dash) → List (String × Json)
  | .ok (parsed, text, d) => successObject parsed text d
  | .error m => cachedFallbackTs m

/-- `runProtocolAnalysis` from the edge-function variant: the missing-key
precondition short-circuits with zero outbound calls; otherwise the attempt is
resolved through the `catch`.  Total by construction. -/
def runProtocolAnalysisTs (env : ServiceEnv) (userData : Json) :
    List (String × Json) × List Call :=
  if env.apiKey.isNone then (missingKeyObjectTs, [])
  else
    let a := attemptTs env userData
    (finishTs a.1, a.2)

/-- Key lookup on a result object (property access on the returned record). -/
def getKey (o : List (String × Json)) (k : String) : Option Json :=
  (o.find? (fun p => p.1 == k)).map (fun p => p.2)

/-- A concrete service environment with no configured API key. -/
def envNoKey : ServiceEnv :=
  { apiKey := none, createThread := .ok "thread_1", createMessage := .ok (),
    createRun := .ok "run_1", retrieveRun := fun _ => .ok "completed",
    listMessages := .ok [] }

/-- A concrete service environment in which every call succeeds and the
assistant replies with the JSON text `\x7b\x7d`. -/
def envHappy : ServiceEnv :=
  { apiKey := some "sk-test", createThread := .ok "thread_1", createMessage := .ok (),
    createRun := .ok "run_1", retrieveRun := fun _ => .ok "completed",
    listMessages := .ok [⟨"assistant", [⟨"text", some ⟨some (.str "\x7b\x7d")⟩⟩]⟩] }

/-- A well-shaped optional field: absent, or a value of JavaScript type
`"object"` (null, an array or an object).  On such fields `||` and `??`
select the same value, which is where the two formatter variants agree. -/
def fieldOkay (o : Option Json) : Bool :=
  match o with
  | none => true
  | some v => typeofJs v == "object"

/-! ## Helper lemmas -/

/-- On a well-shaped left operand, JavaScript `||` and `??` agree: the only
falsy value of type `"object"` is `null`, which is also the only nullish one. -/
theorem orJs_eq_nvlOpt (a b : Option Json) (ha : fieldOkay a = true) :
    orJs a b = nvlOpt a b := by
  cases a with
  | none => rfl
  | some v => cases v <;> simp_all [fieldOkay, typeofJs, orJs, nvlOpt, optTruthy, truthy,
      isNullJson]

/-- `??` preserves well-shapedness. -/
theorem fieldOkay_nvlOpt (a b : Option Json) (ha : fieldOkay a = true)
    (hb : fieldOkay b = true) : fieldOkay (nvlOpt a b) = true := by
  cases a with
  | none => simpa [nvlOpt] using hb
  | some v => cases v <;> simp_all [fieldOkay, nvlOpt, isNullJson]

/-- On a well-shaped value, truthiness coincides with the biometrics section
being pushed. -/
theorem optTruthy_eq_bioSection (o : Option Json) (h : fieldOkay o = true) :
    optTruthy o = !(bioSection o).isEmpty := by
  cases o with
  | none => rfl
  | some v => cases v <;> simp_all [fieldOkay, typeofJs, optTruthy, truthy, bioSection]

/-- On a well-shaped value, truthiness coincides with the labs section being
pushed. -/
theorem optTruthy_eq_labsSection (o : Option Json) (h : fieldOkay o = true) :
    optTruthy o = !(labsSection o).isEmpty := by
  cases o with
  | none => rfl
  | some v => cases v <;> simp_all [fieldOkay, typeofJs, optTruthy, truthy, labsSection]

/-- On a well-shaped value, truthiness coincides with the calendar section
being pushed. -/
theorem optTruthy_eq_calSectionJs (o : Option Json) (h : fieldOkay o = true) :
    optTruthy o = !(calSectionJs o).isEmpty := by
  cases o with
  | none => rfl
  | some v => cases v <;> simp_all [fieldOkay, typeofJs, optTruthy, truthy, calSectionJs,
      isArrayJson]

/-- The two calendar-section variants agree on every value: an array is always
truthy, so the extra truthiness guard of the server module never matters. -/
theorem calSectionJs_eq_calSectionTs (o : Option Json) :
    calSectionJs o = calSectionTs o := by
  cases o with
  | none => rfl
  | some v => cases v <;> simp [calSectionJs, calSectionTs, truthy, isArrayJson, typeofJs]

/-- `a ?? b` is `b` when `a` is nullish. -/
theorem nvl_of_nullish (a : Option Json) (b : Json) (h : nullishOpt a = true) :
    nvl a b = b := by
  cases a with
  | none => rfl
  | some v => simp [nullishOpt] at h; simp [nvl, h]

/-- `a ?? b` is `a`'s value when `a` is present and not null. -/
theorem nvl_of_present (v : Json) (b : Json) (h : isNullJson v = false) :
    nvl (some v) b = v := by
  simp [nvl, h]

/-- A `??` step preserves "is a string" when its left side is nullish or a
string and its right side is a string. -/
theorem nvl_isStr (a : Option Json) (b : Json)
    (ha : nullishOpt a = true ∨ isStrOpt a = true) (hb : isStrJson b = true) :
    isStrJson (nvl a b) = true := by
  cases a with
  | none => simpa [nvl] using hb
  | some v =>
    rcases ha with h | h
    · simp only [nullishOpt] at h
      simpa [nvl, h] using hb
    · cases v <;> simp_all [isStrOpt, nvl, isNullJson, isStrJson]

/-- In an object all of whose values are strings or null, every property
access yields a nullish value or a string. -/
theorem getField_strOrNull (fs : List (String × Json))
    (h : ∀ p ∈ fs, (isStrJson p.2 || isNullJson p.2) = true) (k : String) :
    nullishOpt (getField (Json.obj fs) k) = true ∨
      isStrOpt (getField (Json.obj fs) k) = true := by
  rcases hf : getField (Json.obj fs) k with _ | v
  · left; rfl
  · simp only [getField, Option.map_eq_some'] at hf
    rcases hf with ⟨p, hfind, hv⟩
    have hmem := List.mem_of_find?_eq_some hfind
    have := h p hmem
    rw [hv] at this
    rcases Bool.or_eq_true_iff.mp this with hs | hn
    · right; cases v <;> simp_all [isStrJson, isStrOpt]
    · left; cases v <;> simp_all [isNullJson, nullishOpt]

/-- The two formatter variants agree on every input whose six recognized
fields are each absent or of JavaScript type `"object"`: under that shape
`||` and `??` select the same values, a selected value is truthy exactly when
its section is pushed, and the empty-section fallbacks then coincide. -/
theorem formatVariants_agree (u : Json)
    (hb : fieldOkay (getField u "biometrics") = true)
    (hcm : fieldOkay (getField u "clinical_markers") = true)
    (hca : fieldOkay (getField u "clinical_audit") = true)
    (hl : fieldOkay (getField u "labs") = true)
    (hce : fieldOkay (getField u "calendar_events") = true)
    (hcal : fieldOkay (getField u "calendar") = true) :
    formatUserDataPayloadJs u = formatUserDataPayloadTs u := by
  by_cases hg : (truthy u && typeofJs u == "object") = true
  · have hlabs : orJs (getField u "clinical_markers")
        (orJs (getField u "clinical_audit") (getField u "labs")) = labsOfTs u := by
      rw [orJs_eq_nvlOpt _ _ hcm, orJs_eq_nvlOpt _ _ hca]; rfl
    have hcalv : orJs (getField u "calendar_events") (getField u "calendar") =
        calendarOfTs u := by
      rw [orJs_eq_nvlOpt _ _ hce]; rfl
    have hlok : fieldOkay (labsOfTs u) = true :=
      fieldOkay_nvlOpt _ _ hcm (fieldOkay_nvlOpt _ _ hca hl)
    have hcok : fieldOkay (calendarOfTs u) = true := fieldOkay_nvlOpt _ _ hce hcal
    simp only [formatUserDataPayloadJs, formatUserDataPayloadTs, hg, if_true]
    rw [hlabs, hcalv, optTruthy_eq_bioSection _ hb, optTruthy_eq_labsSection _ hlok,
        optTruthy_eq_calSectionJs _ hcok]
    simp only [formatExecutivePayload, sectionsJs, sectionsOfTs,
      calSectionJs_eq_calSectionTs]
    generalize bioSection (getField u "biometrics") = B
    generalize labsSection (labsOfTs u) = L
    generalize calSectionTs (calendarOfTs u) = C
    cases B <;> cases L <;> cases C <;> simp [List.isEmpty]
  · simp only [Bool.not_eq_true] at hg
    simp [formatUserDataPayloadJs, formatUserDataPayloadTs, hg]

/-- Appending to a nonempty string yields a nonempty string. -/
theorem strAppend_ne_empty (s t : String) (h : s ≠ "") : s ++ t ≠ "" := by
  intro hc
  apply h
  have hd := congrArg String.data hc
  rw [String.data_append] at hd
  rcases List.append_eq_nil.mp hd with ⟨h1, _⟩
  exact String.ext h1

/-- `sections.join('\n\n')` of a nonempty list with a nonempty head is
nonempty. -/
theorem joinSections_ne_empty (l : List String) (hl : l ≠ [])
    (h : ∀ s ∈ l, s ≠ "") : joinSections l ≠ "" := by
  match l with
  | [] => exact absurd rfl hl
  | [s] => exact h s (by simp)
  | s :: s' :: rest =>
    show s ++ "\n\n" ++ joinSections (s' :: rest) ≠ ""
    exact strAppend_ne_empty _ _ (strAppend_ne_empty _ _ (h s (by simp)))

/-- Every pushed biometrics section starts with its title. -/
theorem bioSection_elt_ne_empty (o : Option Json) (s : String)
    (hs : s ∈ bioSection o) : s ≠ "" := by
  cases o with
  | none => simp [bioSection] at hs
  | some v =>
    simp only [bioSection] at hs
    split at hs
    · simp only [List.mem_singleton] at hs
      subst hs
      exact strAppend_ne_empty _ _ (by decide)
    · simp at hs

/-- Every pushed labs section starts with its title. -/
theorem labsSection_elt_ne_empty (o : Option Json) (s : String)
    (hs : s ∈ labsSection o) : s ≠ "" := by
  cases o with
  | none => simp [labsSection] at hs
  | some v =>
    simp only [labsSection] at hs
    split at hs
    · simp only [List.mem_singleton] at hs
      subst hs
      exact strAppend_ne_empty _ _ (by decide)
    · simp at hs

/-- Every pushed calendar section starts with its title (edge variant). -/
theorem calSectionTs_elt_ne_empty (o : Option Json) (s : String)
    (hs : s ∈ calSectionTs o) : s ≠ "" := by
  cases o with
  | none => simp [calSectionTs] at hs
  | some v =>
    simp only [calSectionTs] at hs
    split at hs
    · simp only [List.mem_singleton] at hs
      subst hs
      exact strAppend_ne_empty _ _ (by decide)
    · split at hs
      · simp only [List.mem_singleton] at hs
        subst hs
        exact strAppend_ne_empty _ _ (by decide)
      · simp at hs

/-- Every element of a combined section list is nonempty. -/
theorem sections_elt_ne_empty (b l c : Option Json) (s : String)
    (hs : s ∈ bioSection b ++ labsSection l ++ calSectionTs c) : s ≠ "" := by
  rcases List.mem_append.mp hs with h | h
  · rcases List.mem_append.mp h with h' | h'
    · exact bioSection_elt_ne_empty b s h'
    · exact labsSection_elt_ne_empty l s h'
  · exact calSectionTs_elt_ne_empty c s h

/-- The pretty-printed rendering of a truthy `object` value (an array or an
object record) is never the empty string. -/
theorem stringify2_object_ne_empty (u : Json)
    (h : (truthy u && typeofJs u == "object") = true) : stringify2 u ≠ "" := by
  cases u with
  | null => simp [truthy] at h
  | bool b => simp [typeofJs] at h
  | num l => simp [typeofJs] at h
  | str s => simp [typeofJs] at h
  | arr es =>
    cases es with
    | nil => decide
    | cons e es' =>
      show "[\n" ++ _ ++ "\n" ++ _ ++ "]" ≠ ""
      exact strAppend_ne_empty _ _ (strAppend_ne_empty _ _
        (strAppend_ne_empty _ _ (strAppend_ne_empty _ _ (by decide))))
  | obj fs =>
    cases fs with
    | nil => decide
    | cons f fs' =>
      show "\x7b\n" ++ _ ++ "\n" ++ _ ++ "\x7d" ≠ ""
      exact strAppend_ne_empty _ _ (strAppend_ne_empty _ _
        (strAppend_ne_empty _ _ (strAppend_ne_empty _ _ (by decide))))

/-- On an object argument both normalizers take the unguarded branch: the
four `??` chains. -/
theorem normalizeJs_obj (fs : List (String × Json)) :
    normalizeForDashboardJs (Json.obj fs) =
      { directive :=
          nvl (getField (Json.obj fs) "directive")
            (nvl (getField (Json.obj fs) "recommendation")
              (nvl (getField (Json.obj fs) "summary") (.str "")))
        insight :=
          nvl (getField (Json.obj fs) "insight")
            (nvl (getField (Json.obj fs) "analysis") (.str ""))
        statusText :=
          nvl (getField (Json.obj fs) "status")
            (nvl (getField (Json.obj fs) "statusText") (.str "Optimal Baseline"))
        protocolLogMessage :=
          nvl (getField (Json.obj fs) "protocolLogMessage")
            (nvl (getField (Json.obj fs) "directive")
              (nvl (getField (Json.obj fs) "summary") (.str ""))) } := by
  simp [normalizeForDashboardJs, truthy, typeofJs]

/-- With error-free status reads, the poll loop's outcome is determined by the
first terminal status in its window. -/
theorem waitLoop_fst_eq (statuses : Nat → String) (fuel : Nat) : ∀ i : Nat,
    (waitLoop (fun k => .ok (statuses k)) i fuel).1 =
      match firstHit statuses i fuel with
      | none => .error "Run did not complete within max wait time"
      | some s =>
        if s == "completed" then .ok ()
        else .error ("Run ended with status: " ++ s) := by
  induction fuel with
  | zero => intro i; rfl
  | succ f ih =>
    intro i
    simp only [waitLoop, firstHit, isTerminalStatus]
    rcases Bool.eq_false_or_eq_true (statuses i == "completed") with h1 | h1
    · simp [h1]
    · rcases Bool.eq_false_or_eq_true (abnormalStatus (statuses i)) with h2 | h2
      · simp [h1, h2]
      · rw [if_neg (by simp [h1]), if_neg (by simp [h2]), if_neg (by simp [h1, h2])]
        simpa using ih (i + 1)

/-- `firstHit` finds nothing exactly when no status in the window is terminal. -/
theorem firstHit_eq_none_iff (statuses : Nat → String) (fuel : Nat) : ∀ i : Nat,
    firstHit statuses i fuel = none ↔
      ∀ k, k < fuel → isTerminalStatus (statuses (i + k)) = false := by
  induction fuel with
  | zero => intro i; simp [firstHit]
  | succ f ih =>
    intro i
    simp only [firstHit]
    rcases Bool.eq_false_or_eq_true (isTerminalStatus (statuses i)) with h | h
    · rw [if_pos h]
      constructor
      · intro hc; exact Option.noConfusion hc
      · intro hall
        have h0 := hall 0 (Nat.succ_pos f)
        rw [Nat.add_zero, h] at h0
        cases h0
    · rw [if_neg (by simp [h]), ih (i + 1)]
      constructor
      · intro hall k hk
        cases k with
        | zero => simpa using h
        | succ k' =>
          have := hall k' (Nat.lt_of_succ_lt_succ hk)
          have harith : i + 1 + k' = i + (k' + 1) := by omega
          rwa [harith] at this
      · intro hall k hk
        have := hall (k + 1) (Nat.succ_lt_succ hk)
        have harith : i + (k + 1) = i + 1 + k := by omega
        rwa [harith] at this

/-- `firstHit` yields `s` exactly when `s` is the status of the first terminal
read in the window. -/
theorem firstHit_eq_some_iff (statuses : Nat → String) (s : String) (fuel : Nat) :
    ∀ i : Nat,
    firstHit statuses i fuel = some s ↔
      ∃ k, k < fuel ∧ statuses (i + k) = s ∧ isTerminalStatus s = true ∧
        ∀ j, j < k → isTerminalStatus (statuses (i + j)) = false := by
  induction fuel with
  | zero => intro i; simp [firstHit]
  | succ f ih =>
    intro i
    simp only [firstHit]
    rcases Bool.eq_false_or_eq_true (isTerminalStatus (statuses i)) with h | h
    · rw [if_pos h]
      constructor
      · intro hs
        have hv : statuses i = s := by injection hs
        exact ⟨0, Nat.succ_pos f, by rwa [Nat.add_zero], hv ▸ h,
               fun j hj => absurd hj (Nat.not_lt_zero j)⟩
      · rintro ⟨k, hk, hks, hts, hmin⟩
        cases k with
        | zero => rw [Nat.add_zero] at hks; rw [hks]
        | succ k' =>
          have h0 := hmin 0 (Nat.succ_pos k')
          rw [Nat.add_zero, h] at h0
          cases h0
    · rw [if_neg (by simp [h]), ih (i + 1)]
      constructor
      · rintro ⟨k, hk, hks, hts, hmin⟩
        refine ⟨k + 1, Nat.succ_lt_succ hk, ?_, hts, ?_⟩
        · have harith : i + (k + 1) = i + 1 + k := by omega
          rwa [harith]
        · intro j hj
          cases j with
          | zero => simpa using h
          | succ j' =>
            have := hmin j' (Nat.lt_of_succ_lt_succ hj)
            have harith : i + 1 + j' = i + (j' + 1) := by omega
            rwa [harith] at this
      · rintro ⟨k, hk, hks, hts, hmin⟩
        cases k with
        | zero =>
          rw [Nat.add_zero] at hks
          rw [hks] at h
          rw [h] at hts
          cases hts
        | succ k' =>
          refine ⟨k', Nat.lt_of_succ_lt_succ hk, ?_, hts, ?_⟩
          · have harith : i + 1 + k' = i + (k' + 1) := by omega
            rwa [harith]
          · intro j hj
            have := hmin (j + 1) (Nat.succ_lt_succ hj)
            have harith : i + (j + 1) = i + 1 + j := by omega
            rwa [harith] at this

/-- An abnormal terminal status is not `"completed"`. -/
theorem abnormal_ne_completed (t : String) (h : abnormalStatus t = true) :
    (t == "completed") = false := by
  simp only [abnormalStatus, Bool.or_eq_true, beq_iff_eq] at h
  rcases h with (h | h) | h <;> subst h <;> decide

/-- The abnormal-termination message never equals the timeout message. -/
theorem abnormal_msg_ne_timeout (t : String) (h : abnormalStatus t = true) :
    ("Run ended with status: " ++ t) ≠ "Run did not complete within max wait time" := by
  simp only [abnormalStatus, Bool.or_eq_true, beq_iff_eq] at h
  rcases h with (h | h) | h <;> subst h <;> decide

/-- Among abnormal statuses, the termination message determines the status. -/
theorem abnormal_msg_inj (s t : String) (hs : abnormalStatus s = true)
    (ht : abnormalStatus t = true)
    (h : ("Run ended with status: " ++ s) = "Run ended with status: " ++ t) : s = t := by
  simp only [abnormalStatus, Bool.or_eq_true, beq_iff_eq] at hs ht
  rcases hs with (h1 | h1) | h1 <;> rcases ht with (h2 | h2) | h2 <;> subst h1 <;> subst h2 <;>
    first
    | rfl
    | exact absurd h (by decide)

/-- A terminal status that is not `"completed"` is abnormal. -/
theorem terminal_not_completed_abnormal (s : String)
    (ht : isTerminalStatus s = true) (hc : (s == "completed") = false) :
    abnormalStatus s = true := by
  simp only [isTerminalStatus, Bool.or_eq_true] at ht
  rcases ht with h | h
  · rw [h] at hc; cases hc
  · exact h

/-- The server module's result is either the assembled completed object or
the cached fallback carrying the thrown message. -/
theorem runJs_shape (env : ServiceEnv) (u : Json) :
    (∃ p t, (runProtocolAnalysisJs env u).1 =
       successObject p t (normalizeForDashboardJs p)) ∨
    (∃ m, (runProtocolAnalysisJs env u).1 = cachedFallbackJs m) := by
  rcases h : (attemptJs env u).1 with m | ⟨p, t⟩
  · right
    refine ⟨m, ?_⟩
    show finishJs (attemptJs env u).1 = _
    rw [h]
    rfl
  · left
    refine ⟨p, t, ?_⟩
    show finishJs (attemptJs env u).1 = _
    rw [h]
    rfl

/-- The edge function's result is the missing-key object, the assembled
completed object, or the cached fallback carrying the thrown message. -/
theorem runTs_shape (env : ServiceEnv) (u : Json) :
    (env.apiKey = none ∧ (runProtocolAnalysisTs env u).1 = missingKeyObjectTs) ∨
    (∃ p t d, (runProtocolAnalysisTs env u).1 = successObject p t d) ∨
    (∃ m, (runProtocolAnalysisTs env u).1 = cachedFallbackTs m) := by
  rcases hk : env.apiKey with _ | key
  · left
    have hn : env.apiKey.isNone = true := by rw [hk]; rfl
    exact ⟨by simp [hk], by simp [runProtocolAnalysisTs, hn]⟩
  · have hne : env.apiKey.isNone = false := by rw [hk]; rfl
    rcases h : (attemptTs env u).1 with m | ⟨p, t, d⟩
    · right; right
      refine ⟨m, ?_⟩
      simp only [runProtocolAnalysisTs, hne, Bool.false_eq_true, if_false]
      show finishTs (attemptTs env u).1 = _
      rw [h]
      rfl
    · right; left
      refine ⟨p, t, d, ?_⟩
      simp only [runProtocolAnalysisTs, hne, Bool.false_eq_true, if_false]
      show finishTs (attemptTs env u).1 = _
      rw [h]
      rfl

/-- With no three-backtick occurrence there is no fence match at all. -/
theorem matchFence_of_no_backticks (cs : List Char) (h : firstTBIdx cs = none) :
    matchFence cs = none := by
  simp [matchFence, h]

/-! ## Claim theorems -/

/--
Claim C7 (counterexample): the claim says the Dashboard Normalizer returns all
four of `directive`, `insight`, `statusText`, `protocolLogMessage` as defined
STRINGS for every parsed-reply object.  But both normalizers pass a non-string
binding through unchanged: on the reply `\x7b"directive": 42\x7d` the returned
`directive` is the number `42`, not a string.
-/
theorem c7_counterexample :
    (normalizeForDashboardJs (Json.obj [("directive", Json.num "42")])).directive =
      Json.num "42" ∧
    isStrJson
      (normalizeForDashboardJs (Json.obj [("directive", Json.num "42")])).directive =
      false := by
  constructor <;> rfl

/--
Claim C7 (amended): for every parsed-reply object the normalizer returns all
four fields defined, `statusText` defaulting to `"Optimal Baseline"` exactly
when both `status` and `statusText` are absent or null; the two variants agree
on every object; each field is a string whenever the reply binds only strings
or nulls; and the worked example from the specification holds.
-/
theorem c7_normalizer_contract :
    (∀ fs : List (String × Json),
       nullishOpt (getField (Json.obj fs) "status") = true →
       nullishOpt (getField (Json.obj fs) "statusText") = true →
       (normalizeForDashboardJs (Json.obj fs)).statusText = Json.str "Optimal Baseline") ∧
    (∀ fs : List (String × Json),
       normalizeForDashboardTs (Json.obj fs) = .ok (normalizeForDashboardJs (Json.obj fs))) ∧
    (∀ fs : List (String × Json),
       (∀ p ∈ fs, (isStrJson p.2 || isNullJson p.2) = true) →
       isStrJson (normalizeForDashboardJs (Json.obj fs)).directive = true ∧
       isStrJson (normalizeForDashboardJs (Json.obj fs)).insight = true ∧
       isStrJson (normalizeForDashboardJs (Json.obj fs)).statusText = true ∧
       isStrJson (normalizeForDashboardJs (Json.obj fs)).protocolLogMessage = true) ∧
    normalizeForDashboardJs
        (Json.obj [("summary", Json.str "Increase hydration"),
                   ("analysis", Json.str "Electrolytes low")]) =
      ⟨Json.str "Increase hydration", Json.str "Electrolytes low",
       Json.str "Optimal Baseline", Json.str "Increase hydration"⟩ := by
  refine ⟨?_, ?_, ?_, ?_⟩
  · intro fs h1 h2
    rw [normalizeJs_obj]
    show nvl (getField (Json.obj fs) "status")
        (nvl (getField (Json.obj fs) "statusText") (.str "Optimal Baseline")) =
      Json.str "Optimal Baseline"
    rw [nvl_of_nullish _ _ h1, nvl_of_nullish _ _ h2]
  · intro fs
    rw [normalizeJs_obj]
    simp [normalizeForDashboardTs]
  · intro fs h
    have hs := getField_strOrNull fs h
    have one : ∀ (k : String) (d : Json), isStrJson d = true →
        isStrJson (nvl (getField (Json.obj fs) k) d) = true :=
      fun k d hd => nvl_isStr _ _ (hs k) hd
    rw [normalizeJs_obj]
    exact ⟨one _ _ (one _ _ (one _ _ rfl)), one _ _ (one _ _ rfl),
           one _ _ (one _ _ rfl), one _ _ (one _ _ (one _ _ rfl))⟩
  · rfl

/-- Claim C7 (witness): the amended theorem applied at concrete inputs. -/
theorem c7_witness :
    (normalizeForDashboardJs (Json.obj [("note", Json.str "x")])).statusText =
      Json.str "Optimal Baseline" ∧
    (isStrJson (normalizeForDashboardJs
        (Json.obj [("directive", Json.str "d"), ("status", Json.null)])).directive = true ∧
     isStrJson (normalizeForDashboardJs
        (Json.obj [("directive", Json.str "d"), ("status", Json.null)])).insight = true ∧
     isStrJson (normalizeForDashboardJs
        (Json.obj [("directive", Json.str "d"), ("status", Json.null)])).statusText = true ∧
     isStrJson (normalizeForDashboardJs
        (Json.obj [("directive", Json.str "d"), ("status", Json.null)])).protocolLogMessage =
       true) :=
  ⟨c7_normalizer_contract.1 [("note", Json.str "x")] rfl rfl,
   c7_normalizer_contract.2.2.1 [("directive", Json.str "d"), ("status", Json.null)]
     (by intro p hp; fin_cases hp <;> rfl)⟩

/--
Claim C1 (confirmed): both `runProtocolAnalysis` variants are total functions
of the environment (no error escapes — the model's result type has no error
case), and for every input and every service behaviour the result is either
the completed object (`protocolCached: false`, `status: "completed"`) or a
cached object (`protocolCached: true`, `status: "cached"`) carrying a
human-readable `error` string.
-/
theorem c1_uniform_fallback :
    ∀ (env : ServiceEnv) (userData : Json),
      ((getKey (runProtocolAnalysisJs env userData).1 "protocolCached" =
          some (Json.bool false) ∧
        getKey (runProtocolAnalysisJs env userData).1 "status" =
          some (Json.str "completed")) ∨
       (getKey (runProtocolAnalysisJs env userData).1 "protocolCached" =
          some (Json.bool true) ∧
        getKey (runProtocolAnalysisJs env userData).1 "status" =
          some (Json.str "cached") ∧
        ∃ m, getKey (runProtocolAnalysisJs env userData).1 "error" =
          some (Json.str m))) ∧
      ((getKey (runProtocolAnalysisTs env userData).1 "protocolCached" =
          some (Json.bool false) ∧
        getKey (runProtocolAnalysisTs env userData).1 "status" =
          some (Json.str "completed")) ∨
       (getKey (runProtocolAnalysisTs env userData).1 "protocolCached" =
          some (Json.bool true) ∧
        getKey (runProtocolAnalysisTs env userData).1 "status" =
          some (Json.str "cached") ∧
        ∃ m, getKey (runProtocolAnalysisTs env userData).1 "error" =
          some (Json.str m))) := by
  intro env u
  constructor
  · rcases runJs_shape env u with ⟨p, t, hr⟩ | ⟨m, hr⟩
    · left
      rw [hr]
      exact ⟨rfl, rfl⟩
    · right
      rw [hr]
      exact ⟨rfl, rfl, errMsgJs m, rfl⟩
  · rcases runTs_shape env u with ⟨_, hr⟩ | ⟨p, t, d, hr⟩ | ⟨m, hr⟩
    · right
      rw [hr]
      exact ⟨rfl, rfl, "OPENAI_API_KEY not set", rfl⟩
    · left
      rw [hr]
      exact ⟨rfl, rfl⟩
    · right
      rw [hr]
      exact ⟨rfl, rfl, m, rfl⟩

/--
Claim C2 (counterexample): the two paths do NOT return the same key set in the
server module.  With the API key absent, `runProtocolAnalysis` in
`chronos-brain.js` returns the spread of `PROTOCOL_CACHED_FALLBACK` plus
`error`: it has `status: "cached"` and a `message` key but NO `statusText`,
`protocolLogMessage` or `rawText` keys — while the completed path (here under
`envHappy`) has `statusText`/`rawText` and no `message`/`error`.
-/
theorem c2_counterexample :
    getKey (runProtocolAnalysisJs envNoKey Json.null).1 "status" =
      some (Json.str "cached") ∧
    getKey (runProtocolAnalysisJs envNoKey Json.null).1 "statusText" = none ∧
    getKey (runProtocolAnalysisJs envNoKey Json.null).1 "protocolLogMessage" = none ∧
    getKey (runProtocolAnalysisJs envNoKey Json.null).1 "rawText" = none ∧
    getKey (runProtocolAnalysisJs envNoKey Json.null).1 "message" =
      some (Json.str "Protocol Cached") ∧
    getKey (runProtocolAnalysisJs envHappy Json.null).1 "status" =
      some (Json.str "completed") ∧
    getKey (runProtocolAnalysisJs envHappy Json.null).1 "statusText" =
      some (Json.str "Optimal Baseline") ∧
    getKey (runProtocolAnalysisJs envHappy Json.null).1 "message" = none ∧
    getKey (runProtocolAnalysisJs envHappy Json.null).1 "error" = none := by
  exact ⟨rfl, rfl, rfl, rfl, rfl, rfl, rfl, rfl, rfl⟩

/--
Claim C2 (amended): every result of both variants carries exactly one of
`status: "completed"` (with `protocolCached: false`) or `status: "cached"`
(with `protocolCached: true`).  The four dashboard text fields are present on
both paths of the edge-function variant only; the key sets still differ
between its paths (the completed path adds `data`/`rawText`, the cached path
adds `message`/`error`), and the server module's cached path lacks
`statusText` and `protocolLogMessage` altogether.
-/
theorem c2_status_invariant :
    ∀ (env : ServiceEnv) (u : Json),
      ((getKey (runProtocolAnalysisJs env u).1 "status" = some (Json.str "completed") ∧
        getKey (runProtocolAnalysisJs env u).1 "protocolCached" = some (Json.bool false)) ∨
       (getKey (runProtocolAnalysisJs env u).1 "status" = some (Json.str "cached") ∧
        getKey (runProtocolAnalysisJs env u).1 "protocolCached" = some (Json.bool true))) ∧
      ((getKey (runProtocolAnalysisTs env u).1 "status" = some (Json.str "completed") ∧
        getKey (runProtocolAnalysisTs env u).1 "protocolCached" = some (Json.bool false)) ∨
       (getKey (runProtocolAnalysisTs env u).1 "status" = some (Json.str "cached") ∧
        getKey (runProtocolAnalysisTs env u).1 "protocolCached" = some (Json.bool true))) ∧
      (getKey (runProtocolAnalysisTs env u).1 "directive").isSome = true ∧
      (getKey (runProtocolAnalysisTs env u).1 "insight").isSome = true ∧
      (getKey (runProtocolAnalysisTs env u).1 "statusText").isSome = true ∧
      (getKey (runProtocolAnalysisTs env u).1 "protocolLogMessage").isSome = true := by
  intro env u
  refine ⟨?_, ?_⟩
  · rcases runJs_shape env u with ⟨p, t, hr⟩ | ⟨m, hr⟩ <;> rw [hr]
    · exact Or.inl ⟨rfl, rfl⟩
    · exact Or.inr ⟨rfl, rfl⟩
  · rcases runTs_shape env u with ⟨_, hr⟩ | ⟨p, t, d, hr⟩ | ⟨m, hr⟩ <;> rw [hr]
    · exact ⟨Or.inr ⟨rfl, rfl⟩, rfl, rfl, rfl, rfl⟩
    · exact ⟨Or.inl ⟨rfl, rfl⟩, rfl, rfl, rfl, rfl⟩
    · exact ⟨Or.inr ⟨rfl, rfl⟩, rfl, rfl, rfl, rfl⟩

/--
Claim C4 (confirmed): with no `OPENAI_API_KEY` in the environment, both
variants return the cached outcome with `protocolCached: true`,
`status: "cached"` and an error string naming the missing key (the server
module throws and catches `"OPENAI_API_KEY is not set"`, the edge variant
short-circuits with `"OPENAI_API_KEY not set"`), and the outbound call trace
is empty.
-/
theorem c4_missing_key :
    ∀ (env : ServiceEnv) (u : Json), env.apiKey = none →
      runProtocolAnalysisJs env u = (cachedFallbackJs "OPENAI_API_KEY is not set", []) ∧
      getKey (cachedFallbackJs "OPENAI_API_KEY is not set") "protocolCached" =
        some (Json.bool true) ∧
      getKey (cachedFallbackJs "OPENAI_API_KEY is not set") "status" =
        some (Json.str "cached") ∧
      getKey (cachedFallbackJs "OPENAI_API_KEY is not set") "error" =
        some (Json.str "OPENAI_API_KEY is not set") ∧
      runProtocolAnalysisTs env u = (missingKeyObjectTs, []) ∧
      getKey missingKeyObjectTs "protocolCached" = some (Json.bool true) ∧
      getKey missingKeyObjectTs "status" = some (Json.str "cached") ∧
      getKey missingKeyObjectTs "error" = some (Json.str "OPENAI_API_KEY not set") := by
  intro env u h
  have hn : env.apiKey.isNone = true := by rw [h]; rfl
  refine ⟨?_, rfl, rfl, rfl, ?_, rfl, rfl, rfl⟩
  · show (finishJs (attemptJs env u).1, (attemptJs env u).2) = _
    simp only [attemptJs, hn, if_true]
    rfl
  · simp only [runProtocolAnalysisTs, hn, if_true]

/-- Claim C4 (witness): the missing-key theorem applied at a concrete
environment and input. -/
theorem c4_witness :
    runProtocolAnalysisJs envNoKey Json.null =
      (cachedFallbackJs "OPENAI_API_KEY is not set", []) ∧
    runProtocolAnalysisTs envNoKey Json.null = (missingKeyObjectTs, []) :=
  ⟨(c4_missing_key envNoKey Json.null rfl).1,
   (c4_missing_key envNoKey Json.null rfl).2.2.2.2.1⟩

/--
Claim C3 (counterexample): the two variants do NOT implement the same logic
for every input.  On `\x7b"biometrics": "hr"\x7d` the server module's
`formatUserDataPayload` sees a truthy `biometrics` (`||`-style truthiness
check) and descends into `formatExecutivePayload`, which finds no object-typed
section and returns `"No data provided."`; the edge-function variant pushes no
section and falls back to the pretty-printed JSON of the whole input.  The
normalizers also differ off objects: on the parsed reply `5` the edge variant
applies the `??` chains (default `statusText` `"Optimal Baseline"`) while the
server module's guard returns four empty strings.
-/
theorem c3_counterexample :
    formatUserDataPayloadJs (Json.obj [("biometrics", Json.str "hr")]) =
      "No data provided." ∧
    formatUserDataPayloadTs (Json.obj [("biometrics", Json.str "hr")]) =
      "\x7b\n  \"biometrics\": \"hr\"\n\x7d" ∧
    formatUserDataPayloadJs (Json.obj [("biometrics", Json.str "hr")]) ≠
      formatUserDataPayloadTs (Json.obj [("biometrics", Json.str "hr")]) ∧
    normalizeForDashboardJs (Json.num "5") =
      ⟨Json.str "", Json.str "", Json.str "", Json.str ""⟩ ∧
    normalizeForDashboardTs (Json.num "5") =
      .ok ⟨Json.str "", Json.str "", Json.str "Optimal Baseline", Json.str ""⟩ := by
  refine ⟨rfl, rfl, ?_, rfl, rfl⟩
  decide

/--
Claim C3 (amended): the two variants agree on every non-object input (both
return `"No data provided."`) and on every object input whose six recognized
fields (`biometrics`, `clinical_markers`, `clinical_audit`, `labs`,
`calendar_events`, `calendar`) are each absent, null, or of JavaScript type
`"object"`; the normalizers agree (`edge = ok ∘ server`) on every truthy value
of type `"object"`.  They differ when a recognized field holds a non-object
primitive (the server module selects by truthiness, the edge variant by
non-nullish-ness) and when the parsed reply is not an object.
-/
theorem c3_variant_agreement :
    (∀ u : Json, (truthy u && typeofJs u == "object") = false →
       formatUserDataPayloadJs u = formatUserDataPayloadTs u) ∧
    (∀ u : Json,
       fieldOkay (getField u "biometrics") = true →
       fieldOkay (getField u "clinical_markers") = true →
       fieldOkay (getField u "clinical_audit") = true →
       fieldOkay (getField u "labs") = true →
       fieldOkay (getField u "calendar_events") = true →
       fieldOkay (getField u "calendar") = true →
       formatUserDataPayloadJs u = formatUserDataPayloadTs u) ∧
    (∀ parsed : Json, (truthy parsed && typeofJs parsed == "object") = true →
       normalizeForDashboardTs parsed = .ok (normalizeForDashboardJs parsed)) := by
  refine ⟨?_, ?_, ?_⟩
  · intro u hg
    simp [formatUserDataPayloadJs, formatUserDataPayloadTs, hg]
  · intro u hb hcm hca hl hce hcal
    exact formatVariants_agree u hb hcm hca hl hce hcal
  · intro parsed hg
    cases parsed <;>
      simp_all [truthy, typeofJs, normalizeForDashboardTs, normalizeForDashboardJs]

/-- Claim C3 (witness): the agreement theorem applied at concrete inputs of
each of its three kinds. -/
theorem c3_witness :
    formatUserDataPayloadJs (Json.str "plain") = formatUserDataPayloadTs (Json.str "plain") ∧
    formatUserDataPayloadJs
        (Json.obj [("biometrics", Json.obj [("hr", Json.num "60")]),
                   ("labs", Json.null)]) =
      formatUserDataPayloadTs
        (Json.obj [("biometrics", Json.obj [("hr", Json.num "60")]),
                   ("labs", Json.null)]) ∧
    normalizeForDashboardTs (Json.obj [("directive", Json.str "go")]) =
      .ok (normalizeForDashboardJs (Json.obj [("directive", Json.str "go")])) :=
  ⟨c3_variant_agreement.1 (Json.str "plain") rfl,
   c3_variant_agreement.2.1 _ rfl rfl rfl rfl rfl rfl,
   c3_variant_agreement.2.2 _ rfl⟩

/--
Claim C5 (confirmed): under the source defaults (120000 ms max wait, 1500 ms
poll interval, hence an 80-read window), `waitForRun` with error-free status
reads returns normally iff the first terminal status in the window is
`completed`, raises the error carrying the terminal status iff the first
terminal status is `failed`/`cancelled`/`expired`, and raises the timeout
error iff no read in the window is terminal.
-/
theorem c5_wait_for_run :
    numPolls 120000 1500 = 80 ∧
    ∀ statuses : Nat → String,
      (waitForRun (fun i => .ok (statuses i)) 120000 1500 = .ok () ↔
        ∃ k, k < 80 ∧ statuses k = "completed" ∧
          ∀ j, j < k → isTerminalStatus (statuses j) = false) ∧
      (∀ t : String, abnormalStatus t = true →
        (waitForRun (fun i => .ok (statuses i)) 120000 1500 =
            .error ("Run ended with status: " ++ t) ↔
          ∃ k, k < 80 ∧ statuses k = t ∧
            ∀ j, j < k → isTerminalStatus (statuses j) = false)) ∧
      (waitForRun (fun i => .ok (statuses i)) 120000 1500 =
          .error "Run did not complete within max wait time" ↔
        ∀ k, k < 80 → isTerminalStatus (statuses k) = false) := by
  refine ⟨by decide, ?_⟩
  intro statuses
  have hw : waitForRun (fun i => .ok (statuses i)) 120000 1500 =
      match firstHit statuses 0 80 with
      | none => .error "Run did not complete within max wait time"
      | some s =>
        if s == "completed" then .ok ()
        else .error ("Run ended with status: " ++ s) := by
    rw [waitForRun]
    have h80 : numPolls 120000 1500 = 80 := by decide
    rw [h80, waitLoop_fst_eq statuses 80 0]
  refine ⟨?_, ?_, ?_⟩
  · rcases hF : firstHit statuses 0 80 with _ | s
    · replace hw : waitForRun (fun i => .ok (statuses i)) 120000 1500 =
          .error "Run did not complete within max wait time" := hw.trans (by rw [hF])
      rw [hw]
      constructor
      · intro hok; cases hok
      · rintro ⟨k, hk, hks, hmin⟩
        have h2 : firstHit statuses 0 80 = some "completed" :=
          (firstHit_eq_some_iff statuses "completed" 80 0).mpr
            ⟨k, hk, by simpa using hks, by decide, fun j hj => by simpa using hmin j hj⟩
        rw [hF] at h2
        cases h2
    · replace hw : waitForRun (fun i => .ok (statuses i)) 120000 1500 =
          (if s == "completed" then .ok ()
           else .error ("Run ended with status: " ++ s)) := hw.trans (by rw [hF])
      rcases Bool.eq_false_or_eq_true (s == "completed") with hc | hc
      · rw [if_pos hc] at hw
        rw [hw]
        have hs : s = "completed" := eq_of_beq hc
        subst hs
        constructor
        · intro _
          rcases (firstHit_eq_some_iff statuses "completed" 80 0).mp hF with
            ⟨k, hk, hks, _, hmin⟩
          exact ⟨k, hk, by simpa using hks, fun j hj => by simpa using hmin j hj⟩
        · intro _; rfl
      · rw [if_neg (by simp [hc])] at hw
        rw [hw]
        constructor
        · intro hok; cases hok
        · rintro ⟨k, hk, hks, hmin⟩
          have h2 : firstHit statuses 0 80 = some "completed" :=
            (firstHit_eq_some_iff statuses "completed" 80 0).mpr
              ⟨k, hk, by simpa using hks, by decide, fun j hj => by simpa using hmin j hj⟩
          rw [hF] at h2
          injection h2 with h2
          rw [h2] at hc
          exact absurd hc (by decide)
  · intro t ht
    rcases hF : firstHit statuses 0 80 with _ | s
    · replace hw : waitForRun (fun i => .ok (statuses i)) 120000 1500 =
          .error "Run did not complete within max wait time" := hw.trans (by rw [hF])
      rw [hw]
      constructor
      · intro herr
        injection herr with hmsg
        exact absurd hmsg.symm (abnormal_msg_ne_timeout t ht)
      · rintro ⟨k, hk, hks, hmin⟩
        have hts : isTerminalStatus t = true := by simp [isTerminalStatus, ht]
        have h2 : firstHit statuses 0 80 = some t :=
          (firstHit_eq_some_iff statuses t 80 0).mpr
            ⟨k, hk, by simpa using hks, hts, fun j hj => by simpa using hmin j hj⟩
        rw [hF] at h2
        cases h2
    · replace hw : waitForRun (fun i => .ok (statuses i)) 120000 1500 =
          (if s == "completed" then .ok ()
           else .error ("Run ended with status: " ++ s)) := hw.trans (by rw [hF])
      rcases Bool.eq_false_or_eq_true (s == "completed") with hc | hc
      · rw [if_pos hc] at hw
        rw [hw]
        constructor
        · intro herr; cases herr
        · rintro ⟨k, hk, hks, hmin⟩
          have hts : isTerminalStatus t = true := by simp [isTerminalStatus, ht]
          have h2 : firstHit statuses 0 80 = some t :=
            (firstHit_eq_some_iff statuses t 80 0).mpr
              ⟨k, hk, by simpa using hks, hts, fun j hj => by simpa using hmin j hj⟩
          rw [hF] at h2
          injection h2 with h2
          rw [eq_of_beq hc] at h2
          rw [← h2] at ht
          exact absurd ht (by decide)
      · rw [if_neg (by simp [hc])] at hw
        rw [hw]
        constructor
        · intro herr
          injection herr with hmsg
          rcases (firstHit_eq_some_iff statuses s 80 0).mp hF with ⟨k, hk, hks, hts, hmin⟩
          have habn : abnormalStatus s = true :=
            terminal_not_completed_abnormal s hts hc
          have hst : s = t := abnormal_msg_inj s t habn ht hmsg
          rw [hst] at hks
          exact ⟨k, hk, by simpa using hks, fun j hj => by simpa using hmin j hj⟩
        · rintro ⟨k, hk, hks, hmin⟩
          have hts : isTerminalStatus t = true := by simp [isTerminalStatus, ht]
          have h2 : firstHit statuses 0 80 = some t :=
            (firstHit_eq_some_iff statuses t 80 0).mpr
              ⟨k, hk, by simpa using hks, hts, fun j hj => by simpa using hmin j hj⟩
          rw [hF] at h2
          injection h2 with h2
          rw [h2]
  · rcases hF : firstHit statuses 0 80 with _ | s
    · replace hw : waitForRun (fun i => .ok (statuses i)) 120000 1500 =
          .error "Run did not complete within max wait time" := hw.trans (by rw [hF])
      rw [hw]
      constructor
      · intro _ k hk
        have := (firstHit_eq_none_iff statuses 80 0).mp hF k hk
        rwa [Nat.zero_add] at this
      · intro _; rfl
    · replace hw : waitForRun (fun i => .ok (statuses i)) 120000 1500 =
          (if s == "completed" then .ok ()
           else .error ("Run ended with status: " ++ s)) := hw.trans (by rw [hF])
      rcases Bool.eq_false_or_eq_true (s == "completed") with hc | hc
      · rw [if_pos hc] at hw
        rw [hw]
        constructor
        · intro herr; cases herr
        · intro hall
          have h2 : firstHit statuses 0 80 = none :=
            (firstHit_eq_none_iff statuses 80 0).mpr fun k hk => by simpa using hall k hk
          rw [hF] at h2
          cases h2
      · rw [if_neg (by simp [hc])] at hw
        rw [hw]
        constructor
        · intro herr
          injection herr with hmsg
          rcases (firstHit_eq_some_iff statuses s 80 0).mp hF with ⟨_, _, _, hts, _⟩
          have habn : abnormalStatus s = true :=
            terminal_not_completed_abnormal s hts hc
          exact absurd hmsg (abnormal_msg_ne_timeout s habn)
        · intro hall
          have h2 : firstHit statuses 0 80 = none :=
            (firstHit_eq_none_iff statuses 80 0).mpr fun k hk => by simpa using hall k hk
          rw [hF] at h2
          cases h2

/-- Claim C5 (witness): the characterization applied at concrete status
sequences — an immediate completion, an immediate failure, and a run that
never leaves `in_progress` (timeout). -/
theorem c5_witness :
    waitForRun (fun _ => .ok "completed") 120000 1500 = .ok () ∧
    waitForRun (fun _ => .ok "failed") 120000 1500 =
      .error "Run ended with status: failed" ∧
    waitForRun (fun _ => .ok "in_progress") 120000 1500 =
      .error "Run did not complete within max wait time" :=
  ⟨((c5_wait_for_run.2 (fun _ => "completed")).1).mpr
     ⟨0, by decide, rfl, fun j hj => absurd hj (Nat.not_lt_zero j)⟩,
   ((c5_wait_for_run.2 (fun _ => "failed")).2.1 "failed" (by decide)).mpr
     ⟨0, by decide, rfl, fun j hj => absurd hj (Nat.not_lt_zero j)⟩,
   ((c5_wait_for_run.2 (fun _ => "in_progress")).2.2).mpr fun k hk => by decide⟩

/--
Claim C6 (counterexample): the claim's trichotomy fails on the server module.
`\x7b"biometrics": "x"\x7d` IS an object, and none of its fields is an
accepted (object-typed) biometrics/labs/calendar value, so the claim requires
the pretty-printed JSON of the whole input; `formatUserDataPayload` in
`chronos-brain.js` instead returns the literal `"No data provided."`, which
the claim reserves for non-object inputs (and which contains no section and is
not the JSON dump).
-/
theorem c6_counterexample :
    typeofJs (Json.obj [("biometrics", Json.str "x")]) = "object" ∧
    truthy (Json.obj [("biometrics", Json.str "x")]) = true ∧
    formatUserDataPayloadJs (Json.obj [("biometrics", Json.str "x")]) =
      "No data provided." ∧
    stringify2 (Json.obj [("biometrics", Json.str "x")]) =
      "\x7b\n  \"biometrics\": \"x\"\n\x7d" ∧
    formatUserDataPayloadJs (Json.obj [("biometrics", Json.str "x")]) ≠
      stringify2 (Json.obj [("biometrics", Json.str "x")]) := by
  refine ⟨rfl, rfl, rfl, rfl, ?_⟩
  decide

/--
Claim C6 (amended): both formatter variants always return a non-empty string,
and return `"No data provided."` on every non-object (or falsy) input.  The
rest of the claim holds of the edge-function variant: an object input that
yields no section is rendered as the pretty-printed JSON of the whole input,
the labs value is the first non-nullish of `clinical_markers`,
`clinical_audit`, `labs` in that order, and sections appear in the fixed order
biometrics, labs, calendar.  The server module instead selects labs by
truthiness and can return `"No data provided."` for object inputs whose
recognized fields are truthy non-objects.
-/
theorem c6_formatter_contract :
    (∀ u : Json, formatUserDataPayloadJs u ≠ "" ∧ formatUserDataPayloadTs u ≠ "") ∧
    (∀ u : Json, (truthy u && typeofJs u == "object") = false →
       formatUserDataPayloadJs u = "No data provided." ∧
       formatUserDataPayloadTs u = "No data provided.") ∧
    (∀ fs : List (String × Json), sectionsOfTs (Json.obj fs) = [] →
       formatUserDataPayloadTs (Json.obj fs) = stringify2 (Json.obj fs)) ∧
    (∀ u v : Json, getField u "clinical_markers" = some v → isNullJson v = false →
       labsOfTs u = some v) ∧
    (∀ u : Json, nullishOpt (getField u "clinical_markers") = true →
       labsOfTs u = nvlOpt (getField u "clinical_audit") (getField u "labs")) ∧
    formatUserDataPayloadTs
        (Json.obj [("calendar", Json.arr []),
                   ("biometrics", Json.obj [("hr", Json.num "60")]),
                   ("labs", Json.obj [])]) =
      "## Biometrics\n\x7b\n  \"hr\": 60\n\x7d\n\n## Labs / Clinical\n\x7b\x7d\n\n## Calendar\n[]" := by
  refine ⟨?_, ?_, ?_, ?_, ?_, rfl⟩
  · intro u
    constructor
    · by_cases hg : (truthy u && typeofJs u == "object") = true
      · simp only [formatUserDataPayloadJs, hg, if_true]
        split
        · simp only [formatExecutivePayload]
          split
          · decide
          · rename_i hne
            rw [sectionsJs, calSectionJs_eq_calSectionTs] at hne ⊢
            refine joinSections_ne_empty _ (by simpa using hne) ?_
            exact fun s hs => sections_elt_ne_empty _ _ _ s hs
        · exact stringify2_object_ne_empty u hg
      · simp only [Bool.not_eq_true] at hg
        simp +decide [formatUserDataPayloadJs, hg]
    · by_cases hg : (truthy u && typeofJs u == "object") = true
      · simp only [formatUserDataPayloadTs, hg, if_true]
        split
        · exact stringify2_object_ne_empty u hg
        · rename_i hne
          rw [sectionsOfTs] at hne ⊢
          refine joinSections_ne_empty _ (by simpa using hne) ?_
          exact fun s hs => sections_elt_ne_empty _ _ _ s hs
      · simp only [Bool.not_eq_true] at hg
        simp +decide [formatUserDataPayloadTs, hg]
  · intro u hg
    constructor <;> simp [formatUserDataPayloadJs, formatUserDataPayloadTs, hg]
  · intro fs hempty
    simp [formatUserDataPayloadTs, truthy, typeofJs, hempty]
  · intro u v hv hnn
    simp [labsOfTs, nvlOpt, hv, hnn]
  · intro u h
    cases hcm : getField u "clinical_markers" with
    | none => simp [labsOfTs, nvlOpt, hcm]
    | some v =>
      rw [hcm] at h
      simp only [nullishOpt] at h
      simp [labsOfTs, nvlOpt, hcm, h]

/-- Claim C6 (witness): the amended theorem applied at concrete inputs. -/
theorem c6_witness :
    formatUserDataPayloadJs (Json.obj [("x", Json.num "1")]) ≠ "" ∧
    formatUserDataPayloadTs Json.null = "No data provided." ∧
    formatUserDataPayloadTs (Json.obj [("x", Json.num "1")]) =
      stringify2 (Json.obj [("x", Json.num "1")]) ∧
    labsOfTs (Json.obj [("clinical_markers", Json.bool false),
                        ("labs", Json.obj [])]) = some (Json.bool false) ∧
    labsOfTs (Json.obj [("clinical_markers", Json.null),
                        ("labs", Json.obj [])]) =
      nvlOpt (getField (Json.obj [("clinical_markers", Json.null),
                                  ("labs", Json.obj [])]) "clinical_audit")
        (getField (Json.obj [("clinical_markers", Json.null),
                             ("labs", Json.obj [])]) "labs") :=
  ⟨(c6_formatter_contract.1 (Json.obj [("x", Json.num "1")])).1,
   (c6_formatter_contract.2.1 Json.null rfl).2,
   c6_formatter_contract.2.2.1 [("x", Json.num "1")] rfl,
   c6_formatter_contract.2.2.2.1 _ (Json.bool false) rfl rfl,
   c6_formatter_contract.2.2.2.2.1 _ rfl⟩

/--
Claim C8 (confirmed): `parseAssistantJson` trims the raw text, parses only the
trimmed content of the first triple-backtick fenced block (optional `json`
tag) when one is matched and the full trimmed text otherwise, fails exactly
when the selected text is not valid JSON, and on the specification's fenced
example yields an object whose `directive` is `"Rest today"`.
-/
theorem c8_parse_assistant_json :
    (∀ text : String, parseAssistantJson text = jsonParse (selectRaw text)) ∧
    (∀ text : String, firstTBIdx (trimJs text).data = none →
       selectRaw text = trimJs text) ∧
    (∀ (text : String) (inner : List Char),
       matchFence (trimJs text).data = some inner → selectRaw text = ⟨trimChars inner⟩) ∧
    (∀ text : String, (parseAssistantJson text).isOk = isValidJsonText (selectRaw text)) ∧
    parseAssistantJson "```json\n\x7b\"directive\":\"Rest today\"\x7d\n```" =
      .ok (Json.obj [("directive", Json.str "Rest today")]) ∧
    getField (Json.obj [("directive", Json.str "Rest today")]) "directive" =
      some (Json.str "Rest today") := by
  refine ⟨fun _ => rfl, ?_, ?_, fun _ => rfl, rfl, rfl⟩
  · intro text h
    rw [selectRaw, matchFence_of_no_backticks _ h]
  · intro text inner h
    rw [selectRaw, h]

/-- Claim C8 (witness): the selection conjuncts applied at concrete texts. -/
theorem c8_witness :
    selectRaw "plain text" = trimJs "plain text" ∧
    selectRaw " ```json\n1``` " = ⟨trimChars ['1']⟩ :=
  ⟨c8_parse_assistant_json.2.1 "plain text" rfl,
   c8_parse_assistant_json.2.2.1 " ```json\n1``` " ['1'] rfl⟩

/--
Claim C9 (counterexample): MessageNotFound (`'No assistant message in
thread'`) is NOT raised exactly when no assistant-role message exists.  A
thread whose first assistant message has an EMPTY content array raises it in
both variants although an assistant message is present (the claim requires
NoTextContent there); and in the edge variant even a nonempty content array
with no `text`-typed part raises MessageNotFound, where the server module
raises NoTextContent.
-/
theorem c9_counterexample :
    findAssistant [⟨"assistant", []⟩] = some ⟨"assistant", []⟩ ∧
    getLatestAssistantMessageJs [⟨"assistant", []⟩] =
      .error "No assistant message in thread" ∧
    getLatestAssistantMessageTs [⟨"assistant", []⟩] =
      .error "No assistant message in thread" ∧
    getLatestAssistantMessageJs [⟨"assistant", [⟨"image_file", none⟩]⟩] =
      .error "No text content in assistant message" ∧
    getLatestAssistantMessageTs [⟨"assistant", [⟨"image_file", none⟩]⟩] =
      .error "No assistant message in thread" := by
  exact ⟨rfl, rfl, rfl, rfl, rfl⟩

/--
Claim C9 (amended): for the first assistant-role message in the window,
MessageNotFound is raised when none exists OR its content array is empty (both
variants) OR no `text`-typed part exists (edge variant only — the server
module raises NoTextContent there); given a `text` part, both variants return
its string value verbatim when it is a string and raise NoTextContent when it
is not.
-/
theorem c9_extractor_contract :
    ∀ msgs : List Message,
      (findAssistant msgs = none →
        getLatestAssistantMessageJs msgs = .error "No assistant message in thread" ∧
        getLatestAssistantMessageTs msgs = .error "No assistant message in thread") ∧
      (∀ m : Message, findAssistant msgs = some m →
        (m.content = [] →
          getLatestAssistantMessageJs msgs = .error "No assistant message in thread" ∧
          getLatestAssistantMessageTs msgs = .error "No assistant message in thread") ∧
        (m.content ≠ [] → findTextPart m = none →
          getLatestAssistantMessageJs msgs =
            .error "No text content in assistant message" ∧
          getLatestAssistantMessageTs msgs = .error "No assistant message in thread") ∧
        (∀ p : ContentPart, findTextPart m = some p →
          (∀ s : String, partTextValue p = some (Json.str s) →
            getLatestAssistantMessageJs msgs = .ok s ∧
            getLatestAssistantMessageTs msgs = .ok s) ∧
          (isStrOpt (partTextValue p) = false →
            getLatestAssistantMessageJs msgs =
              .error "No text content in assistant message" ∧
            getLatestAssistantMessageTs msgs =
              .error "No text content in assistant message"))) := by
  intro msgs
  refine ⟨?_, ?_⟩
  · intro h
    constructor <;> simp [getLatestAssistantMessageJs, getLatestAssistantMessageTs, h]
  · intro m hm
    refine ⟨?_, ?_, ?_⟩
    · intro hc
      constructor <;>
        simp [getLatestAssistantMessageJs, getLatestAssistantMessageTs, hm, hc]
    · intro hc hft
      have hemp : m.content.isEmpty = false := by
        cases hcon : m.content with
        | nil => exact absurd hcon hc
        | cons a as => rfl
      have hany : m.content.any (fun q => q.ptype == "text") = false := by
        rcases Bool.eq_false_or_eq_true (m.content.any (fun q => q.ptype == "text")) with
          ha | ha
        · rcases List.any_eq_true.mp ha with ⟨q, hqmem, hq⟩
          have := List.find?_eq_none.mp (show m.content.find?
            (fun q => q.ptype == "text") = none from hft) q hqmem
          exact absurd hq this
        · exact ha
      constructor
      · simp [getLatestAssistantMessageJs, hm, hemp, hft]
      · simp [getLatestAssistantMessageTs, hm, hemp, hany]
    · intro p hp
      have hmemp : p ∈ m.content :=
        List.mem_of_find?_eq_some (show m.content.find?
          (fun q => q.ptype == "text") = some p from hp)
      have hcne : m.content ≠ [] := by
        intro hnil
        rw [hnil] at hmemp
        cases hmemp
      have hemp : m.content.isEmpty = false := by
        cases hcon : m.content with
        | nil => exact absurd hcon hcne
        | cons a as => rfl
      have hptype : (p.ptype == "text") = true :=
        @List.find?_some ContentPart (fun q => q.ptype == "text") p m.content
          (show m.content.find? (fun q => q.ptype == "text") = some p from hp)
      have hany : m.content.any (fun q => q.ptype == "text") = true :=
        List.any_eq_true.mpr ⟨p, hmemp, hptype⟩
      refine ⟨?_, ?_⟩
      · intro s hs
        rcases hpt : p.text with _ | t
        · rw [partTextValue, hpt] at hs
          cases hs
        · have hv : t.value? = some (Json.str s) := by
            rw [partTextValue, hpt] at hs
            exact hs
          constructor
          · simp [getLatestAssistantMessageJs, hm, hemp, hp, hpt, hv]
          · simp [getLatestAssistantMessageTs, hm, hemp, hany, hp, hs]
      · intro hns
        constructor
        · rcases hpt : p.text with _ | t
          · simp [getLatestAssistantMessageJs, hm, hemp, hp, hpt]
          · rcases hv : t.value? with _ | v
            · simp [getLatestAssistantMessageJs, hm, hemp, hp, hpt, hv]
            · have hpv : partTextValue p = some v := by
                simp [partTextValue, hpt, hv]
              cases v with
              | str s => rw [hpv] at hns; simp [isStrOpt] at hns
              | null => simp [getLatestAssistantMessageJs, hm, hemp, hp, hpt, hv]
              | bool b => simp [getLatestAssistantMessageJs, hm, hemp, hp, hpt, hv]
              | num l => simp [getLatestAssistantMessageJs, hm, hemp, hp, hpt, hv]
              | arr es => simp [getLatestAssistantMessageJs, hm, hemp, hp, hpt, hv]
              | obj fs => simp [getLatestAssistantMessageJs, hm, hemp, hp, hpt, hv]
        · rcases hv2 : partTextValue p with _ | v
          · simp [getLatestAssistantMessageTs, hm, hemp, hany, hp, hv2]
          · cases v with
            | str s => rw [hv2] at hns; simp [isStrOpt] at hns
            | null => simp [getLatestAssistantMessageTs, hm, hemp, hany, hp, hv2]
            | bool b => simp [getLatestAssistantMessageTs, hm, hemp, hany, hp, hv2]
            | num l => simp [getLatestAssistantMessageTs, hm, hemp, hany, hp, hv2]
            | arr es => simp [getLatestAssistantMessageTs, hm, hemp, hany, hp, hv2]
            | obj fs => simp [getLatestAssistantMessageTs, hm, hemp, hany, hp, hv2]

/-- Claim C9 (witness): the amended theorem applied at concrete threads. -/
theorem c9_witness :
    getLatestAssistantMessageJs
        [⟨"user", []⟩, ⟨"assistant", [⟨"text", some ⟨some (Json.str "hi")⟩⟩]⟩] =
      .ok "hi" ∧
    getLatestAssistantMessageTs
        [⟨"user", []⟩, ⟨"assistant", [⟨"text", some ⟨some (Json.str "hi")⟩⟩]⟩] =
      .ok "hi" ∧
    getLatestAssistantMessageJs [⟨"assistant", [⟨"text", some ⟨some Json.null⟩⟩]⟩] =
      .error "No text content in assistant message" ∧
    getLatestAssistantMessageTs [⟨"assistant", [⟨"text", some ⟨some Json.null⟩⟩]⟩] =
      .error "No text content in assistant message" :=
  ⟨((((c9_extractor_contract
        [⟨"user", []⟩, ⟨"assistant", [⟨"text", some ⟨some (Json.str "hi")⟩⟩]⟩]).2
      ⟨"assistant", [⟨"text", some ⟨some (Json.str "hi")⟩⟩]⟩ rfl).2.2
      ⟨"text", some ⟨some (Json.str "hi")⟩⟩ rfl).1 "hi" rfl).1,
   ((((c9_extractor_contract
        [⟨"user", []⟩, ⟨"assistant", [⟨"text", some ⟨some (Json.str "hi")⟩⟩]⟩]).2
      ⟨"assistant", [⟨"text", some ⟨some (Json.str "hi")⟩⟩]⟩ rfl).2.2
      ⟨"text", some ⟨some (Json.str "hi")⟩⟩ rfl).1 "hi" rfl).2,
   ((((c9_extractor_contract [⟨"assistant", [⟨"text", some ⟨some Json.null⟩⟩]⟩]).2
      ⟨"assistant", [⟨"text", some ⟨some Json.null⟩⟩]⟩ rfl).2.2
      ⟨"text", some ⟨some Json.null⟩⟩ rfl).2 rfl).1,
   ((((c9_extractor_contract [⟨"assistant", [⟨"text", some ⟨some Json.null⟩⟩]⟩]).2
      ⟨"assistant", [⟨"text", some ⟨some Json.null⟩⟩]⟩ rfl).2.2
      ⟨"text", some ⟨some Json.null⟩⟩ rfl).2 rfl).2⟩

/--
Claim C10 (confirmed): the normalizer's `??` chains treat a key bound to null
as absent but use any other present value as-is — including the empty string,
`0` and `false`; in particular `\x7b"directive": null, "recommendation": "R"\x7d`
yields directive `"R"`, `\x7b"directive": ""\x7d` yields directive `""`, and
`\x7b"status": ""\x7d` yields statusText `""` rather than the default.
-/
theorem c10_nullish_semantics :
    (∀ (fs : List (String × Json)) (v : Json),
       getField (Json.obj fs) "directive" = some v → isNullJson v = false →
       (normalizeForDashboardJs (Json.obj fs)).directive = v) ∧
    (∀ (fs : List (String × Json)) (v : Json),
       getField (Json.obj fs) "status" = some v → isNullJson v = false →
       (normalizeForDashboardJs (Json.obj fs)).statusText = v) ∧
    (normalizeForDashboardJs
        (Json.obj [("directive", Json.null), ("recommendation", Json.str "R")])).directive =
      Json.str "R" ∧
    (normalizeForDashboardJs (Json.obj [("directive", Json.str "")])).directive =
      Json.str "" ∧
    (normalizeForDashboardJs (Json.obj [("status", Json.str "")])).statusText =
      Json.str "" ∧
    (normalizeForDashboardJs (Json.obj [("status", Json.bool false)])).statusText =
      Json.bool false ∧
    (normalizeForDashboardJs (Json.obj [("status", Json.num "0")])).statusText =
      Json.num "0" := by
  refine ⟨?_, ?_, rfl, rfl, rfl, rfl, rfl⟩
  · intro fs v hf hv
    rw [normalizeJs_obj]
    show nvl (getField (Json.obj fs) "directive") _ = v
    rw [hf, nvl_of_present _ _ hv]
  · intro fs v hf hv
    rw [normalizeJs_obj]
    show nvl (getField (Json.obj fs) "status") _ = v
    rw [hf, nvl_of_present _ _ hv]

/-- Claim C10 (witness): the general pass-through conjuncts applied at a
concrete reply. -/
theorem c10_witness :
    (normalizeForDashboardJs (Json.obj [("directive", Json.bool true)])).directive =
      Json.bool true ∧
    (normalizeForDashboardJs (Json.obj [("status", Json.str "ok")])).statusText =
      Json.str "ok" :=
  ⟨c10_nullish_semantics.1 [("directive", Json.bool true)] (Json.bool true) rfl rfl,
   c10_nullish_semantics.2.1 [("status", Json.str "ok")] (Json.str "ok") rfl rfl⟩

end Chronos
